import Mathlib

/-!
# Verification of the icuGuard session/queue coordination engine

A shallow embedding of the session-coordination core of `src/main.py`:
the path utilities (`sanitize_filename`, `safe_path_join`), the
`AudioProcessor` state (sessions, processing queue, processed-file set),
its operations (`register_session`, `add_chunk_to_queue`,
`mark_session_complete`, `mark_websocket_disconnected`,
`update_session_username`, `_process_queue`,
`_send_websocket_message_immediate`, `_cleanup_completed_sessions`), the
websocket endpoint's mailbox drain, audio-save and disconnect paths, and
the module-level `cleanup_session`.

Python strings are Lean `String`s; the filesystem is modelled as the set
of existing files and directories, keyed by normalized absolute paths
(lists of path components); clock readings (`time.time()`,
`datetime.now()`) are `Nat` parameters; the transcription engine and the
exceptions a job can raise are an oracle parameter (`TranscribeOutcome`).
-/

namespace ICUGuard

/-! ## Path model (Python `os.path` on POSIX) -/

/-- Split a character list on `'/'`; `acc` holds the (reversed) current
component. Mirrors Python `str.split('/')`. -/
def splitSlashAux : List Char → List Char → List (List Char)
  | [], acc => [acc.reverse]
  | c :: rest, acc =>
    if c = '/' then acc.reverse :: splitSlashAux rest []
    else splitSlashAux rest (c :: acc)

/-- Components of a path string, Python `p.split('/')`. -/
def splitComps (p : String) : List String :=
  (splitSlashAux p.data []).map String.mk

/-- Python `os.path.basename`: everything after the last `'/'`. -/
def pyBasename (p : String) : String :=
  (splitComps p).getLastD ""

/-- One character of `re.sub(r'[^\w\-_. ]', '_', s)`: word characters
(modelled as ASCII alphanumerics and underscore), dash, dot and space are
kept, everything else becomes an underscore. -/
def sanitizeChar (c : Char) : Char :=
  if c.isAlphanum ∨ c = '_' ∨ c = '-' ∨ c = '.' ∨ c = ' ' then c else '_'

/-- `sanitize_filename` (src/main.py:42): basename, then character
replacement. -/
def sanitize_filename (filename : String) : String :=
  String.mk ((pyBasename filename).data.map sanitizeChar)

/-- One step of path normalization: empty and `"."` components are
dropped, `".."` pops, anything else is appended. This is what
`os.path.abspath` does to a component stream. -/
def normStep (acc : List String) (c : String) : List String :=
  if c = "" ∨ c = "." then acc
  else if c = ".." then acc.dropLast
  else acc ++ [c]

/-- Normalize a component list (absolute; `".."` at the root stays at the
root, as in `os.path.abspath`). -/
def normComps (cs : List String) : List String :=
  cs.foldl normStep []

/-- Absolute normalized components of path string `p` resolved against
working directory `cwd` (itself given as absolute components):
`os.path.abspath(p)`. A path starting with `'/'` is already absolute and
is only normalized; a relative path is resolved under `cwd`. -/
def absComps (cwd : List String) (p : String) : List String :=
  if p.data.head? = some '/' then normComps (splitComps p)
  else normComps (cwd ++ splitComps p)

/-- Render absolute components back to a Python path string
(`"/"`-prefixed; the root is `"/"`). -/
def renderAbs : List String → String
  | [] => "/"
  | l => l.foldl (fun acc c => acc ++ "/" ++ c) ""

/-- Python `os.path.join(base, f)` for the cases arising here. -/
def pyJoin (base f : String) : String :=
  if f.data.head? = some '/' then f
  else if base = "" then f
  else if base.data.getLast? = some '/' then base ++ f
  else base ++ "/" ++ f

/-- Python `full.startswith(pre)` on strings. -/
def pyStartswith (pre full : String) : Bool :=
  pre.data.isPrefixOf full.data

/-- Python `s.endswith(suf)` on strings. -/
def pyEndswith (suf full : String) : Bool :=
  suf.data.reverse.isPrefixOf full.data.reverse

/-- Python `s.strip()`: remove leading and trailing whitespace. -/
def pyStrip (s : String) : String :=
  String.mk
    (((s.data.dropWhile Char.isWhitespace).reverse.dropWhile
        Char.isWhitespace).reverse)

/-- A well-formed path component: what survives normalization. -/
def GoodComp (c : String) : Prop := c ≠ "" ∧ c ≠ "." ∧ c ≠ ".."

/-- `safe_path_join` (src/main.py:50): sanitize the filename, join to the
base, take the absolute path, and require it to start with the absolute
base path; otherwise a `ValueError` is raised (modelled as `Except.error`). -/
def safe_path_join (cwd : List String) (base_path filename : String) :
    Except String String :=
  let f := sanitize_filename filename
  let full_path := renderAbs (absComps cwd (pyJoin base_path f))
  if pyStartswith (renderAbs (absComps cwd base_path)) full_path then
    Except.ok full_path
  else
    Except.error ("Path traversal attempt: " ++ f)

/-! ## Filesystem model

Files and directories are identified by their normalized absolute
component paths. Writes and existence checks resolve path strings
against the working directory, exactly as the Python process does. -/

structure FS where
  cwd : List String
  files : List (List String)
  dirs : List (List String)
  deriving Repr, DecidableEq

/-- `os.path.exists` for a file. -/
def FS.fileExists (fs : FS) (p : String) : Bool :=
  decide (absComps fs.cwd p ∈ fs.files)

/-- `os.path.exists` for a path that may be a file or a directory. -/
def FS.pathExists (fs : FS) (p : String) : Bool :=
  decide (absComps fs.cwd p ∈ fs.files ∨ absComps fs.cwd p ∈ fs.dirs)

/-- `open(p, 'wb')` followed by flush and fsync: the file exists afterwards. -/
def FS.writeFile (fs : FS) (p : String) : FS :=
  let key := absComps fs.cwd p
  if key ∈ fs.files then fs else { fs with files := key :: fs.files }

/-- `shutil.rmtree(dir)`: the directory and everything below it disappear. -/
def FS.rmtree (fs : FS) (dir : String) : FS :=
  let key := absComps fs.cwd dir
  { fs with
    files := fs.files.filter (fun p => ¬ (key <+: p)),
    dirs := fs.dirs.filter (fun d => ¬ (key <+: d)) }

/-! ## Data model of the `AudioProcessor` (src/main.py:1644) -/

/-- A queued transcription result, as built by
`_send_websocket_message_immediate` (src/main.py:2028). The float
`confidence` field and the opaque `icu_context` payload are not modelled. -/
structure TranscriptionMsg where
  chunkId : Nat
  text : String
  language : String
  deriving Repr, DecidableEq

/-- One entry of `self.sessions` (src/main.py:1676). The live websocket
handle is represented only by the `websocketActive` flag; `createdAt` is
a clock reading in seconds. -/
structure Session where
  dir : String
  username : String
  sessionCount : Nat
  chunks : List Nat
  complete : Bool
  websocketActive : Bool
  pendingMessages : List TranscriptionMsg
  totalChunks : Nat
  processedChunks : Nat
  createdAt : Nat
  deriving Repr, DecidableEq

/-- One entry of `self.processing_queue` (src/main.py:1739). The opaque
`icu_data` payload is not modelled. -/
structure ChunkInfo where
  sessionId : String
  username : String
  sessionCount : Nat
  filepath : String
  chunkNumber : Nat
  enqueuedAt : Nat
  deriving Repr, DecidableEq

/-- The mutable state of the `AudioProcessor` (src/main.py:1644).
`sessions` is an insertion-ordered association list with unique keys,
mirroring the Python dict; `processedFiles` is `self.processed_files`
(a set, modelled as a duplicate-free list). -/
structure ProcState where
  processedFiles : List String
  sessions : List (String × Session)
  processingQueue : List ChunkInfo
  maxQueueSize : Nat
  lastCleanup : Nat
  sessionCleanupInterval : Nat
  deriving Repr, DecidableEq

/-- `AudioProcessor.__init__` (src/main.py:1645), with the initial
`time.time()` reading as a parameter. -/
def initProcState (now : Nat) : ProcState :=
  { processedFiles := []
    sessions := []
    processingQueue := []
    maxQueueSize := 20
    lastCleanup := now
    sessionCleanupInterval := 300 }

/-- `ENABLE_AUTO_CLEANUP` (src/main.py:2472). -/
def ENABLE_AUTO_CLEANUP : Bool := false

/-! ### Session-map helpers (Python dict operations) -/

/-- `self.sessions[sid]` lookup (`sid in self.sessions` test). -/
def lookupSessions : List (String × Session) → String → Option Session
  | [], _ => none
  | e :: rest, sid => if e.1 = sid then some e.2 else lookupSessions rest sid

/-- `self.sessions[sid] = s`: replace in place, or append a new key. -/
def setSessions : List (String × Session) → String → Session → List (String × Session)
  | [], sid, s => [(sid, s)]
  | e :: rest, sid, s =>
    if e.1 = sid then (sid, s) :: rest else e :: setSessions rest sid s

/-- In-place mutation of the session record stored under `sid`; a no-op
when `sid` is absent. -/
def updateSessions : List (String × Session) → String → (Session → Session) → List (String × Session)
  | [], _, _ => []
  | e :: rest, sid, f =>
    if e.1 = sid then (e.1, f e.2) :: rest else e :: updateSessions rest sid f

/-- `del self.sessions[sid]`. -/
def removeSessions : List (String × Session) → String → List (String × Session)
  | [], _ => []
  | e :: rest, sid =>
    if e.1 = sid then removeSessions rest sid else e :: removeSessions rest sid

def lookupSession (st : ProcState) (sid : String) : Option Session :=
  lookupSessions st.sessions sid

/-- `set.add` on `self.processed_files`. -/
def addProcessed (l : List String) (p : String) : List String :=
  if p ∈ l then l else p :: l

/-! ## Operations of the `AudioProcessor` -/

/-- `register_session` (src/main.py:1673). -/
def registerSession (st : ProcState) (sid dir username : String) (now : Nat) :
    ProcState :=
  let s : Session :=
    { dir := dir
      username := username
      sessionCount := 0
      chunks := []
      complete := false
      websocketActive := true
      pendingMessages := []
      totalChunks := 0
      processedChunks := 0
      createdAt := now }
  { st with sessions := setSessions st.sessions sid s }

/-- The username fallback inside `add_chunk_to_queue` (src/main.py:1709):
when the session's username is unset or `"unknown"`, try to extract one
from the storage directory path. -/
def usernameFromDir (dir sid : String) (current : String) : String :=
  if decide ("/audio/".data <:+: dir.data) then
    let parts := splitComps dir
    if 3 ≤ parts.length ∧ parts.headD "" = "audio" then
      let potential := parts.getD 1 ""
      if potential ≠ "" ∧ potential ≠ "session_" ++ sid then potential
      else current
    else current
  else current

/-- `add_chunk_to_queue` (src/main.py:1691): drop when the queue holds
`max_queue_size` jobs; drop when the chunk file never becomes visible
(the retry loop collapses because the filesystem does not change during
the call); otherwise append the job and raise `total_chunks` to the
maximum observed chunk number. -/
def addChunkToQueue (st : ProcState) (fs : FS) (sid filepath : String)
    (chunkNumber : Nat) (now : Nat) : ProcState :=
  if st.maxQueueSize ≤ st.processingQueue.length then st
  else
    let username :=
      match lookupSession st sid with
      | none => "unknown"
      | some s =>
        if s.username ≠ "" ∧ s.username ≠ "unknown" then s.username
        else usernameFromDir s.dir sid "unknown"
    let sessionCount :=
      match lookupSession st sid with
      | none => 1
      | some s => s.sessionCount
    if ¬ fs.fileExists filepath then st
    else
      let job : ChunkInfo :=
        { sessionId := sid
          username := username
          sessionCount := sessionCount
          filepath := filepath
          chunkNumber := chunkNumber
          enqueuedAt := now }
      let st := { st with processingQueue := st.processingQueue ++ [job] }
      let sessions := updateSessions st.sessions sid
        (fun s => { s with totalChunks := max s.totalChunks chunkNumber })
      { st with sessions := sessions }

/-- `mark_session_complete` (src/main.py:1756). -/
def markSessionComplete (st : ProcState) (sid : String) : ProcState :=
  let sessions := updateSessions st.sessions sid
    (fun s => { s with complete := true })
  { st with sessions := sessions }

/-- `mark_websocket_disconnected` (src/main.py:1764). -/
def markWebsocketDisconnected (st : ProcState) (sid : String) : ProcState :=
  let sessions := updateSessions st.sessions sid
    (fun s => { s with websocketActive := false })
  { st with sessions := sessions }

/-- `update_session_username` (src/main.py:1771). -/
def updateSessionUsername (st : ProcState) (sid username : String)
    (sessionCount : Option Nat) : ProcState × Bool :=
  match lookupSession st sid with
  | none => (st, false)
  | some _ =>
    let sessions := updateSessions st.sessions sid
      (fun s => { s with
        username := username
        sessionCount := sessionCount.getD s.sessionCount })
    ({ st with sessions := sessions }, true)

/-- The endpoint's `init` handler updating
`self.sessions[session_id]['dir']` (src/main.py:1499). -/
def setSessionDir (st : ProcState) (sid dir : String) : ProcState :=
  let sessions := updateSessions st.sessions sid
    (fun s => { s with dir := dir })
  { st with sessions := sessions }

/-- The state after a transcription message is appended to a session's
`pending_messages` mailbox. -/
def mailboxAppendedState (st : ProcState) (sid : String) (chunkNumber : Nat)
    (text language : String) : ProcState :=
  let sessions := updateSessions st.sessions sid
    (fun s => { s with pendingMessages := s.pendingMessages ++
      [{ chunkId := chunkNumber, text := text, language := language }] })
  { st with sessions := sessions }

/-- `_send_websocket_message_immediate` (src/main.py:2013): a logged
no-op when the session is absent or its websocket inactive, otherwise
append the result to the session's `pending_messages` mailbox. -/
def sendWebsocketMessageImmediate (st : ProcState) (sid : String)
    (chunkNumber : Nat) (text language : String) : ProcState :=
  match lookupSession st sid with
  | none => st
  | some s =>
    if ¬ s.websocketActive then st
    else mailboxAppendedState st sid chunkNumber text language

/-! ### The worker (`_process_queue`, src/main.py:1796) -/

/-- The outcome of the `try` block of one worker iteration: the
transcription engine's result, or the exception class raised while
re-reading, transcribing, saving or delivering. -/
inductive TranscribeOutcome where
  | ok (text language : String)
  | fileNotFound
  | failure
  deriving Repr, DecidableEq

/-- The filepath-resolution prelude of `_process_queue`
(src/main.py:1814-1832): if the dequeued job's file is gone, look for a
file of the same basename in the session's current directory. -/
def resolveJobPath (st : ProcState) (fs : FS) (j : ChunkInfo) : String :=
  if fs.fileExists j.filepath then j.filepath
  else
    match lookupSession st j.sessionId with
    | none => j.filepath
    | some s =>
      if s.dir ≠ "" ∧ fs.pathExists s.dir then
        let possible := pyJoin s.dir (pyBasename j.filepath)
        if fs.fileExists possible then possible else j.filepath
      else j.filepath

/-- Mark a storage reference processed and bump the session's
`processed_chunks` (src/main.py:1900-1910 and the twin blocks at
1836-1846 and 1914-1924). -/
def markProcessedAndCount (st : ProcState) (sid filepath : String) : ProcState :=
  let st := { st with processedFiles := addProcessed st.processedFiles filepath }
  let sessions := updateSessions st.sessions sid
    (fun s => { s with processedChunks := s.processedChunks + 1 })
  { st with sessions := sessions }

/-- The storage reference a worker iteration inserts into
`processed_files` for job `j`: the resolved path, made absolute
(src/main.py:1859) when the file exists, left as-is in the
missing-file branch. -/
def workerMarkedPath (st : ProcState) (fs : FS) (j : ChunkInfo) : String :=
  let fp := resolveJobPath st fs j
  if fs.fileExists fp then renderAbs (absComps fs.cwd fp) else fp

/-- The part of a `_process_queue` iteration that follows the pop
(src/main.py:1814-1929), applied to the state `st1` in which the job has
been removed from the queue. A missing file or a `FileNotFoundError`
marks the reference processed and bumps the counter; non-empty text is
queued to the mailbox (output files are saved to directories outside the
model); a generic exception (src/main.py:1925) only marks the reference
processed. -/
def workerBody (st1 : ProcState) (fs : FS) (j : ChunkInfo)
    (oc : TranscribeOutcome) : ProcState :=
  let fp := resolveJobPath st1 fs j
  if ¬ fs.fileExists fp then
    markProcessedAndCount st1 j.sessionId fp
  else
    let fp := renderAbs (absComps fs.cwd fp)
    match oc with
    | .ok text language =>
      let t := pyStrip text
      let st2 :=
        if t ≠ "" then
          sendWebsocketMessageImmediate st1 j.sessionId j.chunkNumber t language
        else st1
      markProcessedAndCount st2 j.sessionId fp
    | .fileNotFound => markProcessedAndCount st1 j.sessionId fp
    | .failure =>
      { st1 with processedFiles := addProcessed st1.processedFiles fp }

/-- One iteration of `_process_queue` (src/main.py:1796): pop the head
job, then run the body on it. -/
def processQueue (st : ProcState) (fs : FS) (oc : TranscribeOutcome) : ProcState :=
  match st.processingQueue with
  | [] => st
  | j :: rest => workerBody { st with processingQueue := rest } fs j oc

/-! ### The reaper (`_cleanup_completed_sessions`, src/main.py:2055) -/

/-- The `f"{session_id}_{os.path.basename(audio_file)}"` keys the cleanup
paths look up in `processed_files` (src/main.py:2084, 2122). -/
def fileKey (sid fname : String) : String := sid ++ "_" ++ fname

/-- `glob.glob(os.path.join(dir, "chunk_*.wav"))`: the files directly
under `dir` whose basename starts with `chunk_` and ends with `.wav`,
as normalized absolute component paths. -/
def chunkFilesUnder (fs : FS) (dir : String) : List (List String) :=
  fs.files.filter (fun p =>
    decide (p.dropLast = absComps fs.cwd dir) &&
    pyStartswith "chunk_" (p.getLastD "") && pyEndswith ".wav" (p.getLastD ""))

/-- The per-session removal decision of `_cleanup_completed_sessions`
(src/main.py:2068-2094): age above 3600 seconds, or complete with an
existing storage directory all of whose chunk files have their
session-prefixed basename key in `processed_files`. -/
def sessionShouldRemove (st : ProcState) (fs : FS) (now : Nat)
    (sid : String) (s : Session) : Bool :=
  if 3600 < now - s.createdAt then true
  else if s.complete then
    if fs.pathExists s.dir then
      (chunkFilesUnder fs s.dir).all
        (fun p => decide (fileKey sid (p.getLastD "") ∈ st.processedFiles))
    else false
  else false

/-- `AudioProcessor._cleanup_session_files` (src/main.py:2107): re-check
that every chunk file's key is marked processed, then remove the session
directory tree (JSON output files live outside the modelled tree). -/
def cleanupSessionFilesMethod (st : ProcState) (fs : FS) (sid dir : String) : FS :=
  if fs.pathExists dir then
    let unprocessed := (chunkFilesUnder fs dir).filter
      (fun p => !(decide (fileKey sid (p.getLastD "") ∈ st.processedFiles)))
    if unprocessed.isEmpty then fs.rmtree dir else fs
  else fs

/-- Removal of one marked session (src/main.py:2097-2105): delete the
registry entry, then clean its files. -/
def removeOne (w : ProcState × FS) (sid : String) : ProcState × FS :=
  match lookupSessions w.1.sessions sid with
  | none => w
  | some s =>
    let st := { w.1 with sessions := removeSessions w.1.sessions sid }
    if s.dir ≠ "" then (st, cleanupSessionFilesMethod st w.2 sid s.dir)
    else (st, w.2)

/-- `_cleanup_completed_sessions` (src/main.py:2055): rate-limited by
`session_cleanup_interval`; collects the sessions to remove, then
removes each. -/
def cleanupCompletedSessions (st : ProcState) (fs : FS) (now : Nat) :
    ProcState × FS :=
  if now - st.lastCleanup < st.sessionCleanupInterval then (st, fs)
  else
    let st := { st with lastCleanup := now }
    let toRemove :=
      (st.sessions.filter (fun e => sessionShouldRemove st fs now e.1 e.2)).map
        (fun e => e.1)
    toRemove.foldl removeOne (st, fs)

/-! ### The websocket endpoint (src/main.py:1416) -/

/-- Messages the endpoint sends for one `audio` message (src/main.py:1535). -/
inductive WsOut where
  | audioReceived (chunk : Nat) (filename : String)
  | errorInvalidFilename (chunk : Nat)
  | errorSaveFailed (chunk : Nat)
  deriving Repr, DecidableEq

/-- The chunk-persistence step of the `audio` handler
(src/main.py:1535-1577): `safe_path_join`, then write; a `ValueError`
or a save failure sends an `error` message and writes nothing. -/
def handleAudioSave (fs : FS) (sessionAudioDir : String) (chunkCounter : Nat)
    (filename : String) (saveOk : Bool) : FS × List WsOut :=
  match safe_path_join fs.cwd sessionAudioDir filename with
  | .error _ => (fs, [.errorInvalidFilename chunkCounter])
  | .ok p =>
    if saveOk then (fs.writeFile p, [.audioReceived chunkCounter filename])
    else (fs, [.errorSaveFailed chunkCounter])

/-- The mailbox drain at the head of the endpoint loop
(src/main.py:1439-1446): copy `pending_messages` and swap in an empty
list, under the session lock. -/
def drainPendingMessages (st : ProcState) (sid : String) :
    List TranscriptionMsg × ProcState :=
  match lookupSession st sid with
  | none => ([], st)
  | some s =>
    let sessions := updateSessions st.sessions sid
      (fun s => { s with pendingMessages := [] })
    (s.pendingMessages, { st with sessions := sessions })

/-- The state left behind by a mailbox drain that found the session:
the mailbox replaced by an empty list. -/
def drainedState (st : ProcState) (sid : String) : ProcState :=
  let sessions := updateSessions st.sessions sid
    (fun s => { s with pendingMessages := [] })
  { st with sessions := sessions }

/-- Module-level `cleanup_session` (src/main.py:2533), run in the
endpoint's `finally` block on every exit path: delete the session's
registry entry; file deletion only when `ENABLE_AUTO_CLEANUP` is set
(it is `False` in the source, src/main.py:2472). -/
def cleanupSession (st : ProcState) (fs : FS) (sid : String) : ProcState × FS :=
  match lookupSession st sid with
  | none => (st, fs)
  | some s =>
    let st := { st with sessions := removeSessions st.sessions sid }
    if s.dir ≠ "" ∧ ENABLE_AUTO_CLEANUP = true then (st, fs.rmtree s.dir)
    else (st, fs)

/-- The endpoint's disconnect path (src/main.py:1603-1620): the
`except WebSocketDisconnect` handler calls `mark_websocket_disconnected`,
then the `finally` block calls `cleanup_session`. -/
def handleDisconnect (st : ProcState) (fs : FS) (sid : String) :
    ProcState × FS :=
  cleanupSession (markWebsocketDisconnected st sid) fs sid

/-! ## The whole system as a step machine

Interleavings of the ingestion loops, the worker thread and the reaper
are sequences of `Op`s; every shared-state mutation in the source is one
of these steps (lock-protected critical sections execute atomically). -/

structure World where
  proc : ProcState
  fs : FS
  deriving Repr, DecidableEq

inductive Op where
  | register (sid dir username : String) (now : Nat)
  | ingestSave (dir : String) (chunkCounter : Nat) (filename : String) (saveOk : Bool)
  | addChunk (sid filepath : String) (chunkNumber : Nat) (now : Nat)
  | markComplete (sid : String)
  | markDisconnected (sid : String)
  | updateUsername (sid username : String) (sessionCount : Option Nat)
  | setDir (sid dir : String)
  | appendResult (sid : String) (chunkNumber : Nat) (text language : String)
  | drain (sid : String)
  | worker (oc : TranscribeOutcome)
  | reap (now : Nat)
  | disconnect (sid : String)
  deriving Repr, DecidableEq

def step (w : World) : Op → World
  | .register sid dir username now =>
    { w with proc := registerSession w.proc sid dir username now }
  | .ingestSave dir c f ok =>
    { w with fs := (handleAudioSave w.fs dir c f ok).1 }
  | .addChunk sid fp n now =>
    { w with proc := addChunkToQueue w.proc w.fs sid fp n now }
  | .markComplete sid => { w with proc := markSessionComplete w.proc sid }
  | .markDisconnected sid =>
    { w with proc := markWebsocketDisconnected w.proc sid }
  | .updateUsername sid u c =>
    { w with proc := (updateSessionUsername w.proc sid u c).1 }
  | .setDir sid d => { w with proc := setSessionDir w.proc sid d }
  | .appendResult sid n t l =>
    { w with proc := sendWebsocketMessageImmediate w.proc sid n t l }
  | .drain sid => { w with proc := (drainPendingMessages w.proc sid).2 }
  | .worker oc => { w with proc := processQueue w.proc w.fs oc }
  | .reap now =>
    let r := cleanupCompletedSessions w.proc w.fs now
    { proc := r.1, fs := r.2 }
  | .disconnect sid =>
    let r := handleDisconnect w.proc w.fs sid
    { proc := r.1, fs := r.2 }

def run (w : World) (ops : List Op) : World := ops.foldl step w

/-! ## Invariant vocabulary -/

/-- Number of queued jobs belonging to one session. -/
def countJobs (q : List ChunkInfo) (sid : String) : Nat :=
  (q.filter (fun j => decide (j.sessionId = sid))).length

/-- How much one worker iteration adds to the session's
`processed_chunks`: nothing when the chunk file exists but a generic
exception is raised (src/main.py:1925), one in every other branch. -/
def workerIncr (st : ProcState) (fs : FS) (j : ChunkInfo)
    (oc : TranscribeOutcome) : Nat :=
  if fs.fileExists (resolveJobPath st fs j) ∧ oc = TranscribeOutcome.failure
  then 0 else 1

/-- The counter invariant: for every registered session,
`processed_chunks` plus the session's queued jobs stays below
`max(total_chunks, 1)`, and both are zero while no chunk was enqueued. -/
def SessionCountersInv (st : ProcState) : Prop :=
  ∀ sid s, lookupSession st sid = some s →
    s.processedChunks + countJobs st.processingQueue sid ≤ max s.totalChunks 1
    ∧ (s.totalChunks = 0 →
        s.processedChunks = 0 ∧ countJobs st.processingQueue sid = 0)

/-- The usage discipline of the websocket endpoint: session ids are
fresh (uuid4) at registration time, and the per-session `chunk_counter`
passed to `add_chunk_to_queue` strictly exceeds every previously
recorded chunk number of that session. -/
def WFOp (w : World) : Op → Prop
  | .register sid _ _ _ =>
    lookupSession w.proc sid = none ∧ countJobs w.proc.processingQueue sid = 0
  | .addChunk sid _ n _ =>
    ∀ s, lookupSession w.proc sid = some s → s.totalChunks < n
  | _ => True

/-- `st'` has the same queue and the same per-session counters as `st`. -/
def CounterFrame (st st' : ProcState) : Prop :=
  st'.processingQueue = st.processingQueue ∧
  ∀ sid, (lookupSession st' sid).map (fun s => (s.totalChunks, s.processedChunks))
       = (lookupSession st sid).map (fun s => (s.totalChunks, s.processedChunks))

/-! ## Concrete fixtures for witnesses and counterexamples -/

/-- The record `register_session` builds for a fresh session. -/
def freshSession (dir username : String) (now : Nat) : Session :=
  { dir := dir
    username := username
    sessionCount := 0
    chunks := []
    complete := false
    websocketActive := true
    pendingMessages := []
    totalChunks := 0
    processedChunks := 0
    createdAt := now }

def emptyFS : FS := { cwd := ["srv"], files := [], dirs := [] }

def fullQueueJob : ChunkInfo :=
  { sessionId := "w6"
    username := "unknown"
    sessionCount := 1
    filepath := "/srv/audio/session_w6/chunk_1_a.wav"
    chunkNumber := 1
    enqueuedAt := 0 }

def fullQueueState : ProcState :=
  { initProcState 0 with processingQueue := List.replicate 20 fullQueueJob }

def w8Session : Session := freshSession "audio/session_w8" "unknown" 0

def w8State : ProcState :=
  { initProcState 0 with sessions := [("w8", w8Session)] }

def w8Inactive : ProcState :=
  { initProcState 0 with
    sessions := [("w8", { w8Session with websocketActive := false })] }

def w10World : World :=
  { proc := { initProcState 0 with
      processedFiles := ["/srv/audio/session_w10/chunk_1_a.wav"] }
    fs := emptyFS }

/-- C1 scenario: one session, one chunk, fully ingested and transcribed. -/
def c1FS : FS :=
  { cwd := ["srv"], files := [], dirs := [["srv", "audio", "session_s1"]] }

def c1World : World := { proc := initProcState 0, fs := c1FS }

def c1Ops : List Op :=
  [ .register "s1" "audio/session_s1" "unknown" 0
  , .ingestSave "audio/session_s1" 1 "chunk_1_t.wav" true
  , .addChunk "s1" "/srv/audio/session_s1/chunk_1_t.wav" 1 0
  , .markComplete "s1"
  , .worker (.ok "hello" "en")
  , .reap 301 ]

/-- C2 scenario: a registered session with one queued, unprocessed chunk
at the moment the transport closes. -/
def c2Session : Session := freshSession "audio/session_s2" "unknown" 0

def c2Job : ChunkInfo :=
  { sessionId := "s2"
    username := "unknown"
    sessionCount := 0
    filepath := "/srv/audio/session_s2/chunk_1_a.wav"
    chunkNumber := 1
    enqueuedAt := 0 }

def c2State : ProcState :=
  { initProcState 0 with
    sessions := [("s2", c2Session)]
    processingQueue := [c2Job] }

def c2FS : FS :=
  { cwd := ["srv"]
    files := [["srv", "audio", "session_s2", "chunk_1_a.wav"]]
    dirs := [["srv", "audio", "session_s2"]] }

/-- C3/C5 scenario: one enqueued chunk whose transcription raises a
generic exception. -/
def c3Session : Session :=
  { freshSession "audio/session_s3" "unknown" 0 with totalChunks := 1 }

def c3Job : ChunkInfo :=
  { sessionId := "s3"
    username := "unknown"
    sessionCount := 0
    filepath := "/srv/audio/session_s3/chunk_1_a.wav"
    chunkNumber := 1
    enqueuedAt := 0 }

def c3FS : FS :=
  { cwd := ["srv"]
    files := [["srv", "audio", "session_s3", "chunk_1_a.wav"]]
    dirs := [["srv", "audio", "session_s3"]] }

def c3State : ProcState :=
  { initProcState 0 with
    sessions := [("s3", c3Session)]
    processingQueue := [c3Job] }

/-- C5 counterexample state: the same as C3 but with the session already
marked complete by the client's `end`. -/
def c5State : ProcState :=
  { c3State with sessions := [("s3", { c3Session with complete := true })] }

/-- C4 scenario: a session that has seen chunks 1-2 while the queue is
at capacity as chunk 5 arrives. -/
def c4Session : Session :=
  { freshSession "audio/session_s4" "unknown" 0 with totalChunks := 2 }

def c4FS : FS :=
  { cwd := ["srv"]
    files := [["srv", "audio", "session_s4", "chunk_5_a.wav"]]
    dirs := [["srv", "audio", "session_s4"]] }

def c4Full : ProcState :=
  { initProcState 0 with
    sessions := [("s4", c4Session)]
    processingQueue := List.replicate 20 fullQueueJob }

def c4Small : ProcState :=
  { initProcState 0 with sessions := [("s4", c4Session)] }

/-- C9 scenario: the per-session storage directory of an active session. -/
def c9FS : FS :=
  { cwd := ["srv"], files := [], dirs := [["srv", "audio", "session_s9"]] }

/-! ## Helper lemmas about the session map -/

theorem lookupSessions_update_self (l : List (String × Session)) (sid : String)
    (f : Session → Session) :
    lookupSessions (updateSessions l sid f) sid = (lookupSessions l sid).map f := by
  induction l with
  | nil => rfl
  | cons e rest ih =>
    by_cases h : e.1 = sid
    · simp [updateSessions, lookupSessions, h]
    · simp [updateSessions, lookupSessions, h, ih]

theorem lookupSessions_update_ne (l : List (String × Session)) (sid sid' : String)
    (f : Session → Session) (h : sid' ≠ sid) :
    lookupSessions (updateSessions l sid f) sid' = lookupSessions l sid' := by
  induction l with
  | nil => rfl
  | cons e rest ih =>
    by_cases he : e.1 = sid
    · have hne : e.1 ≠ sid' := by rw [he]; exact Ne.symm h
      simp [updateSessions, lookupSessions, he, hne, Ne.symm h]
    · simp [updateSessions, lookupSessions, he, ih]

theorem lookupSessions_set_self (l : List (String × Session)) (sid : String)
    (s : Session) : lookupSessions (setSessions l sid s) sid = some s := by
  induction l with
  | nil => simp [setSessions, lookupSessions]
  | cons e rest ih =>
    by_cases h : e.1 = sid
    · simp [setSessions, lookupSessions, h]
    · simp [setSessions, lookupSessions, h, ih]

theorem lookupSessions_set_ne (l : List (String × Session)) (sid sid' : String)
    (s : Session) (h : sid' ≠ sid) :
    lookupSessions (setSessions l sid s) sid' = lookupSessions l sid' := by
  induction l with
  | nil => simp [setSessions, lookupSessions, Ne.symm h]
  | cons e rest ih =>
    by_cases he : e.1 = sid
    · have hne : e.1 ≠ sid' := by rw [he]; exact Ne.symm h
      simp [setSessions, lookupSessions, he, hne, Ne.symm h]
    · simp [setSessions, lookupSessions, he, ih]

theorem lookupSessions_remove_self (l : List (String × Session)) (sid : String) :
    lookupSessions (removeSessions l sid) sid = none := by
  induction l with
  | nil => rfl
  | cons e rest ih =>
    by_cases h : e.1 = sid
    · simp [removeSessions, h, ih]
    · simp [removeSessions, lookupSessions, h, ih]

theorem lookupSessions_remove_ne (l : List (String × Session)) (sid sid' : String)
    (h : sid' ≠ sid) :
    lookupSessions (removeSessions l sid) sid' = lookupSessions l sid' := by
  induction l with
  | nil => rfl
  | cons e rest ih =>
    by_cases he : e.1 = sid
    · have hne : e.1 ≠ sid' := by rw [he]; exact Ne.symm h
      simp [removeSessions, lookupSessions, he, hne, Ne.symm h, ih]
    · simp [removeSessions, lookupSessions, he, ih]

/-- A lookup that succeeds after removals already succeeded before, with
the same record. -/
theorem lookupSessions_remove_le (l : List (String × Session)) (sid sid' : String)
    (s : Session) (h : lookupSessions (removeSessions l sid) sid' = some s) :
    lookupSessions l sid' = some s := by
  by_cases he : sid' = sid
  · rw [he, lookupSessions_remove_self] at h; cases h
  · rwa [lookupSessions_remove_ne l sid sid' he] at h

/-! ## Frame lemmas for `processedFiles` -/

theorem mem_addProcessed (l : List String) (p x : String) (hx : x ∈ l) :
    x ∈ addProcessed l p := by
  unfold addProcessed
  split
  · exact hx
  · exact List.mem_cons_of_mem _ hx

theorem addChunkToQueue_processedFiles (st : ProcState) (fs : FS)
    (sid fp : String) (n now : Nat) :
    (addChunkToQueue st fs sid fp n now).processedFiles = st.processedFiles := by
  unfold addChunkToQueue
  split
  · rfl
  · dsimp only
    split
    · rfl
    · rfl

theorem sendWebsocketMessageImmediate_processedFiles (st : ProcState)
    (sid : String) (n : Nat) (t l : String) :
    (sendWebsocketMessageImmediate st sid n t l).processedFiles
      = st.processedFiles := by
  unfold sendWebsocketMessageImmediate
  cases lookupSession st sid with
  | none => rfl
  | some s =>
    dsimp only
    split
    · rfl
    · rfl

theorem removeOne_processedFiles (w : ProcState × FS) (sid : String) :
    ((removeOne w sid).1).processedFiles = w.1.processedFiles := by
  unfold removeOne
  cases lookupSessions w.1.sessions sid with
  | none => rfl
  | some s =>
    dsimp only
    split
    · rfl
    · rfl

theorem foldl_removeOne_processedFiles (sids : List String) (w : ProcState × FS) :
    ((sids.foldl removeOne w).1).processedFiles = w.1.processedFiles := by
  induction sids generalizing w with
  | nil => rfl
  | cons sid rest ih =>
    rw [List.foldl_cons, ih, removeOne_processedFiles]

theorem cleanupCompletedSessions_processedFiles (st : ProcState) (fs : FS)
    (now : Nat) :
    ((cleanupCompletedSessions st fs now).1).processedFiles
      = st.processedFiles := by
  unfold cleanupCompletedSessions
  split
  · rfl
  · rw [foldl_removeOne_processedFiles]

theorem cleanupSession_processedFiles (st : ProcState) (fs : FS) (sid : String) :
    ((cleanupSession st fs sid).1).processedFiles = st.processedFiles := by
  unfold cleanupSession
  cases lookupSession st sid with
  | none => rfl
  | some s =>
    dsimp only
    split
    · rfl
    · rfl

theorem markProcessedAndCount_processedFiles (st : ProcState) (sid fp : String) :
    (markProcessedAndCount st sid fp).processedFiles
      = addProcessed st.processedFiles fp := rfl

theorem drainPendingMessages_processedFiles (st : ProcState) (sid : String) :
    ((drainPendingMessages st sid).2).processedFiles = st.processedFiles := by
  unfold drainPendingMessages
  cases lookupSession st sid with
  | none => rfl
  | some s => rfl

theorem updateSessionUsername_processedFiles (st : ProcState) (sid u : String)
    (c : Option Nat) :
    ((updateSessionUsername st sid u c).1).processedFiles = st.processedFiles := by
  unfold updateSessionUsername
  cases lookupSession st sid with
  | none => rfl
  | some s => rfl

theorem workerBody_processedFiles_mono (st1 : ProcState) (fs : FS)
    (j : ChunkInfo) (oc : TranscribeOutcome) (x : String)
    (hx : x ∈ st1.processedFiles) :
    x ∈ (workerBody st1 fs j oc).processedFiles := by
  unfold workerBody
  split
  · dsimp only
    split
    · exact mem_addProcessed _ _ _ hx
    · apply mem_addProcessed
      split
      · rw [sendWebsocketMessageImmediate_processedFiles]; exact hx
      · exact hx
  · dsimp only
    split
    · exact mem_addProcessed _ _ _ hx
    · exact mem_addProcessed _ _ _ hx
  · dsimp only
    split
    · exact mem_addProcessed _ _ _ hx
    · exact mem_addProcessed _ _ _ hx

theorem processQueue_processedFiles_mono (st : ProcState) (fs : FS)
    (oc : TranscribeOutcome) (x : String) (hx : x ∈ st.processedFiles) :
    x ∈ (processQueue st fs oc).processedFiles := by
  unfold processQueue
  cases hq : st.processingQueue with
  | nil => exact hx
  | cons j rest => exact workerBody_processedFiles_mono _ fs j oc x hx

/-! ## Claim C6 -/

/-- **C6.** When `add_chunk_to_queue` is called while the processing
queue already holds `max_queue_size` (20, set in `__init__`) jobs, the
job is dropped: the whole processor state — queue, sessions, mailboxes,
processed set — is returned unchanged, without blocking or raising into
the ingestion loop, so the dropped chunk can never produce a mailbox
entry for its session. -/
theorem queue_full_drops_chunk (st : ProcState) (fs : FS) (sid fp : String)
    (n now : Nat) (h : st.maxQueueSize ≤ st.processingQueue.length) :
    addChunkToQueue st fs sid fp n now = st
      ∧ (∀ t, (initProcState t).maxQueueSize = 20) := by
  refine ⟨?_, fun t => rfl⟩
  unfold addChunkToQueue
  rw [if_pos h]

theorem queue_full_drops_chunk_witness :
    addChunkToQueue fullQueueState emptyFS "w6" "/srv/audio/x.wav" 21 5
      = fullQueueState :=
  (queue_full_drops_chunk fullQueueState emptyFS "w6" "/srv/audio/x.wav" 21 5
    (by decide)).1

/-! ## Claim C7 -/

theorem drainPendingMessages_absent (st : ProcState) (sid : String)
    (h : lookupSession st sid = none) :
    drainPendingMessages st sid = ([], st) := by
  unfold drainPendingMessages
  rw [h]

theorem drainPendingMessages_present (st : ProcState) (sid : String)
    (s : Session) (h : lookupSession st sid = some s) :
    drainPendingMessages st sid = (s.pendingMessages, drainedState st sid) := by
  unfold drainPendingMessages drainedState
  rw [h]

/-- **C7.** Draining a session's mailbox swaps the mailbox for an empty
list under the session lock and returns the prior contents in append
order; a second drain with no intervening append returns the empty list
(so no message is ever returned by two distinct drains). -/
theorem drain_mailbox_swaps_and_empties (st : ProcState) (sid : String) :
    (drainPendingMessages st sid).1
        = ((lookupSession st sid).map (fun s => s.pendingMessages)).getD []
      ∧ ((lookupSession (drainPendingMessages st sid).2 sid).map
          (fun s => s.pendingMessages)).getD [] = []
      ∧ (drainPendingMessages (drainPendingMessages st sid).2 sid).1 = [] := by
  cases h : lookupSession st sid with
  | none =>
    rw [drainPendingMessages_absent st sid h]
    refine ⟨rfl, ?_, ?_⟩
    · rw [h]; rfl
    · rw [drainPendingMessages_absent st sid h]
  | some s =>
    rw [drainPendingMessages_present st sid s h]
    have h2 : lookupSession (drainedState st sid) sid
        = some { s with pendingMessages := [] } := by
      show lookupSessions (updateSessions st.sessions sid _) sid = _
      rw [lookupSessions_update_self]
      rw [show lookupSessions st.sessions sid = some s from h]
      rfl
    refine ⟨rfl, by rw [h2]; rfl, ?_⟩
    rw [drainPendingMessages_present _ sid _ h2]

/-! ## Claim C8 -/

/-- **C8.** `mark_websocket_disconnected` only sets `websocket_active`
to `False` on the target session: every other field of that session, all
other sessions, the processed set and the queue are unchanged; and
`_send_websocket_message_immediate` is a logged no-op when the session
is absent or its websocket inactive, so results queued before a
disconnect are preserved. -/
theorem mark_disconnected_frame_and_mailbox_noop (st : ProcState) (sid : String) :
    lookupSession (markWebsocketDisconnected st sid) sid
        = (lookupSession st sid).map (fun s => { s with websocketActive := false })
      ∧ (∀ sid', sid' ≠ sid →
          lookupSession (markWebsocketDisconnected st sid) sid'
            = lookupSession st sid')
      ∧ (markWebsocketDisconnected st sid).processedFiles = st.processedFiles
      ∧ (markWebsocketDisconnected st sid).processingQueue = st.processingQueue
      ∧ (lookupSession st sid = none →
          ∀ n t l, sendWebsocketMessageImmediate st sid n t l = st)
      ∧ (∀ s, lookupSession st sid = some s → s.websocketActive = false →
          ∀ n t l, sendWebsocketMessageImmediate st sid n t l = st) := by
  refine ⟨?_, ?_, rfl, rfl, ?_, ?_⟩
  · simp only [markWebsocketDisconnected, lookupSession]
    exact lookupSessions_update_self st.sessions sid _
  · intro sid' hne
    simp only [markWebsocketDisconnected, lookupSession]
    exact lookupSessions_update_ne st.sessions sid sid' _ hne
  · intro h n t l
    simp [sendWebsocketMessageImmediate, h]
  · intro s h hw n t l
    simp [sendWebsocketMessageImmediate, h, hw]

theorem mark_disconnected_frame_witness :
    lookupSession (markWebsocketDisconnected w8State "w8") "w8"
        = some { w8Session with websocketActive := false }
      ∧ sendWebsocketMessageImmediate w8Inactive "w8" 1 "hi" "en" = w8Inactive := by
  constructor
  · rw [(mark_disconnected_frame_and_mailbox_noop w8State "w8").1]; rfl
  · exact (mark_disconnected_frame_and_mailbox_noop w8Inactive "w8").2.2.2.2.2
      { w8Session with websocketActive := false } rfl rfl 1 "hi" "en"

/-! ## Claim C10 -/

/-- **C10.** The ProcessedSet (`AudioProcessor.processed_files`) is
monotone: no operation of the system ever removes an element, so a
storage reference once marked processed stays marked for the lifetime of
the processor. -/
theorem processed_files_monotone (w : World) (op : Op) (x : String)
    (hx : x ∈ w.proc.processedFiles) : x ∈ (step w op).proc.processedFiles := by
  cases op with
  | register sid dir u now => exact hx
  | ingestSave d c f ok => exact hx
  | addChunk sid fp n now =>
    show x ∈ (addChunkToQueue w.proc w.fs sid fp n now).processedFiles
    rw [addChunkToQueue_processedFiles]; exact hx
  | markComplete sid => exact hx
  | markDisconnected sid => exact hx
  | updateUsername sid u c =>
    show x ∈ ((updateSessionUsername w.proc sid u c).1).processedFiles
    rw [updateSessionUsername_processedFiles]; exact hx
  | setDir sid d => exact hx
  | appendResult sid n t l =>
    show x ∈ (sendWebsocketMessageImmediate w.proc sid n t l).processedFiles
    rw [sendWebsocketMessageImmediate_processedFiles]; exact hx
  | drain sid =>
    show x ∈ ((drainPendingMessages w.proc sid).2).processedFiles
    rw [drainPendingMessages_processedFiles]; exact hx
  | worker oc => exact processQueue_processedFiles_mono w.proc w.fs oc x hx
  | reap now =>
    show x ∈ ((cleanupCompletedSessions w.proc w.fs now).1).processedFiles
    rw [cleanupCompletedSessions_processedFiles]; exact hx
  | disconnect sid =>
    show x ∈ ((handleDisconnect w.proc w.fs sid).1).processedFiles
    unfold handleDisconnect
    rw [cleanupSession_processedFiles]
    exact hx

theorem processed_files_monotone_witness :
    "/srv/audio/session_w10/chunk_1_a.wav"
      ∈ (step w10World (Op.worker .failure)).proc.processedFiles :=
  processed_files_monotone w10World (Op.worker .failure)
    "/srv/audio/session_w10/chunk_1_a.wav" (by decide)

/-! ## Claim C1 -/

/-- **C1 (code bug).** End-to-end evaluation of the reaper's marker
mismatch. After a session's single chunk is ingested, enqueued,
successfully transcribed and the queue drained (`complete=true`,
`processed_chunks=1`), the worker has inserted the chunk's absolute
filepath into `processed_files` (src/main.py:1902) — but the sweep at
`now=301` looks up the key `"s1_chunk_1_t.wav"`
(src/main.py:2084), which is absent, so the complete, fully-processed
session is NOT deleted from the registry, contrary to the claim. The
sweep would remove it if `processed_files` held the session-prefixed
basename key it consults. -/
theorem reaper_misses_worker_markers :
    (run c1World (c1Ops.take 5)).proc.processingQueue = []
      ∧ (lookupSession (run c1World (c1Ops.take 5)).proc "s1").map
          (fun s => (s.complete, s.processedChunks)) = some (true, 1)
      ∧ "/srv/audio/session_s1/chunk_1_t.wav"
          ∈ (run c1World c1Ops).proc.processedFiles
      ∧ fileKey "s1" "chunk_1_t.wav" ∉ (run c1World c1Ops).proc.processedFiles
      ∧ lookupSession (run c1World c1Ops).proc "s1" ≠ none
      ∧ lookupSession (cleanupCompletedSessions
          { (run c1World (c1Ops.take 5)).proc with
              processedFiles := [fileKey "s1" "chunk_1_t.wav"] }
          (run c1World (c1Ops.take 5)).fs 301).1 "s1" = none := by decide

/-! ## Claim C2 -/

/-- **C2 counterexample.** The claim says the session's registry entry
remains (with `connectionActive=false`) when the transport closes before
`end`, removed only later by age-based eviction. In the code, the
endpoint's `finally` block (src/main.py:1615) calls `cleanup_session`,
which deletes the entry immediately: right after the disconnect path
runs, the session is gone from the registry. -/
theorem disconnect_deletes_registry_entry :
    lookupSession (handleDisconnect c2State c2FS "s2").1 "s2" = none := by decide

/-! ## Claim C3 -/

/-- **C3 counterexample.** A queued chunk whose transcription raises a
generic exception (src/main.py:1925): the storage reference is added to
`processed_files`, but — contrary to the claim — `processed_chunks` is
NOT incremented in this exception branch (it stays `0`). -/
theorem generic_exception_skips_counter :
    "/srv/audio/session_s3/chunk_1_a.wav"
        ∈ (processQueue c3State c3FS .failure).processedFiles
      ∧ (lookupSession (processQueue c3State c3FS .failure) "s3").map
          (fun s => s.processedChunks) = some 0 := by decide

/-! ## Claim C4 -/

/-- **C4 counterexample.** The claim says `total_chunks` rises to
`max(total_chunks, sequenceNumber)` even for a chunk dropped because the
queue is at capacity. In the code the queue-full check
(src/main.py:1694-1697) returns before the `total_chunks` update
(src/main.py:1752): with the queue at its 20-job capacity, submitting
chunk 5 of session `s4` (whose file exists) leaves the state — including
`total_chunks = 2` — completely unchanged, instead of raising it to 5. -/
theorem dropped_chunk_not_recorded :
    addChunkToQueue c4Full c4FS "s4" "/srv/audio/session_s4/chunk_5_a.wav" 5 0
        = c4Full
      ∧ (lookupSession (addChunkToQueue c4Full c4FS "s4"
          "/srv/audio/session_s4/chunk_5_a.wav" 5 0) "s4").map
          (fun s => s.totalChunks) = some 2
      ∧ (2 : Nat) ≠ max 2 5 := by decide

/-! ## Claim C5 -/

/-- **C5 counterexample.** The convergence conjunct fails: a complete
session whose single queued job was drained through the generic
exception branch ends with `processed_chunks = 0 ≠ 1 = total_chunks`. -/
theorem convergence_fails_after_generic_exception :
    (processQueue c5State c3FS .failure).processingQueue = []
      ∧ (lookupSession (processQueue c5State c3FS .failure) "s3").map
          (fun s => (s.complete, s.totalChunks, s.processedChunks))
          = some (true, 1, 0)
      ∧ (0 : Nat) ≠ 1 := by decide

/-! ## Helper lemmas for the amended claims -/

theorem updateSessions_absent (l : List (String × Session)) (sid : String)
    (f : Session → Session) (h : lookupSessions l sid = none) :
    updateSessions l sid f = l := by
  induction l with
  | nil => rfl
  | cons e rest ih =>
    by_cases he : e.1 = sid
    · simp [lookupSessions, he] at h
    · simp only [lookupSessions, if_neg he] at h
      simp [updateSessions, he, ih h]

theorem mem_addProcessed_self (l : List String) (p : String) :
    p ∈ addProcessed l p := by
  unfold addProcessed
  split
  · assumption
  · exact List.mem_cons_self _ _

theorem countJobs_cons (j : ChunkInfo) (q : List ChunkInfo) (sid : String) :
    countJobs (j :: q) sid
      = (if j.sessionId = sid then 1 else 0) + countJobs q sid := by
  by_cases h : j.sessionId = sid
  · simp [countJobs, List.filter_cons, h, Nat.add_comm]
  · simp [countJobs, List.filter_cons, h]

theorem countJobs_append (q1 q2 : List ChunkInfo) (sid : String) :
    countJobs (q1 ++ q2) sid = countJobs q1 sid + countJobs q2 sid := by
  simp [countJobs, List.filter_append]

theorem markProcessedAndCount_queue (st : ProcState) (sid fp : String) :
    (markProcessedAndCount st sid fp).processingQueue = st.processingQueue := rfl

theorem markProcessedAndCount_lookup_self (st : ProcState) (sid fp : String) :
    lookupSession (markProcessedAndCount st sid fp) sid
      = (lookupSession st sid).map
          (fun s => { s with processedChunks := s.processedChunks + 1 }) :=
  lookupSessions_update_self st.sessions sid _

theorem markProcessedAndCount_lookup_ne (st : ProcState) (sid sid' fp : String)
    (h : sid' ≠ sid) :
    lookupSession (markProcessedAndCount st sid fp) sid' = lookupSession st sid' :=
  lookupSessions_update_ne st.sessions sid sid' _ h

theorem sendWebsocketMessageImmediate_absent (st : ProcState) (sid : String)
    (n : Nat) (t l : String) (h : lookupSession st sid = none) :
    sendWebsocketMessageImmediate st sid n t l = st := by
  unfold sendWebsocketMessageImmediate
  rw [h]

theorem sendWebsocketMessageImmediate_queue (st : ProcState) (sid : String)
    (n : Nat) (t l : String) :
    (sendWebsocketMessageImmediate st sid n t l).processingQueue
      = st.processingQueue := by
  unfold sendWebsocketMessageImmediate
  cases lookupSession st sid with
  | none => rfl
  | some s =>
    dsimp only
    split
    · rfl
    · rfl

theorem sendWebsocketMessageImmediate_lookup_ne (st : ProcState)
    (sid sid' : String) (n : Nat) (t l : String) (h : sid' ≠ sid) :
    lookupSession (sendWebsocketMessageImmediate st sid n t l) sid'
      = lookupSession st sid' := by
  unfold sendWebsocketMessageImmediate
  cases lookupSession st sid with
  | none => rfl
  | some s =>
    dsimp only
    split
    · rfl
    · exact lookupSessions_update_ne st.sessions sid sid' _ h

theorem sendWebsocketMessageImmediate_inactive (st : ProcState) (sid : String)
    (n : Nat) (t l : String) (s : Session) (h : lookupSession st sid = some s)
    (hw : s.websocketActive = false) :
    sendWebsocketMessageImmediate st sid n t l = st := by
  unfold sendWebsocketMessageImmediate
  rw [h]
  simp [hw]

theorem sendWebsocketMessageImmediate_active (st : ProcState) (sid : String)
    (n : Nat) (t l : String) (s : Session) (h : lookupSession st sid = some s)
    (hw : s.websocketActive = true) :
    sendWebsocketMessageImmediate st sid n t l
      = mailboxAppendedState st sid n t l := by
  unfold sendWebsocketMessageImmediate
  rw [h]
  simp [hw]

theorem sendWebsocketMessageImmediate_lookup_counters (st : ProcState)
    (sid : String) (n : Nat) (t l : String) (sid' : String) (g : Nat → Nat) :
    (lookupSession (sendWebsocketMessageImmediate st sid n t l) sid').map
        (fun s => (s.totalChunks, g s.processedChunks))
      = (lookupSession st sid').map
          (fun s => (s.totalChunks, g s.processedChunks)) := by
  by_cases h : sid' = sid
  · subst h
    cases hl : lookupSession st sid' with
    | none =>
      rw [sendWebsocketMessageImmediate_absent st sid' n t l hl, hl]
    | some s =>
      by_cases hw : s.websocketActive = true
      · rw [sendWebsocketMessageImmediate_active st sid' n t l s hl hw]
        show (lookupSessions (updateSessions st.sessions sid' _) sid').map _
          = (some s).map _
        rw [lookupSessions_update_self]
        have hl' : lookupSessions st.sessions sid' = some s := hl
        rw [hl']
        rfl
      · have hw' : s.websocketActive = false := by simp at hw; exact hw
        rw [sendWebsocketMessageImmediate_inactive st sid' n t l s hl hw', hl]
  · rw [sendWebsocketMessageImmediate_lookup_ne st sid sid' n t l h]

theorem counterFrame_inv (st st' : ProcState) (hf : CounterFrame st st')
    (hInv : SessionCountersInv st) : SessionCountersInv st' := by
  intro sid s' hs'
  have h := hf.2 sid
  rw [hs'] at h
  cases hl : lookupSession st sid with
  | none => rw [hl] at h; exact absurd h (by simp)
  | some s =>
    rw [hl] at h
    have hts := Option.some.inj h
    have ht : s'.totalChunks = s.totalChunks := congrArg Prod.fst hts
    have hp : s'.processedChunks = s.processedChunks := congrArg Prod.snd hts
    have hi := hInv sid s hl
    rw [hf.1, ht, hp]
    exact hi

theorem counterFrame_mono (st st' : ProcState) (hf : CounterFrame st st')
    (sid : String) (s s' : Session) (hs : lookupSession st sid = some s)
    (hs' : lookupSession st' sid = some s') :
    s.totalChunks ≤ s'.totalChunks ∧ s.processedChunks ≤ s'.processedChunks := by
  have h := hf.2 sid
  rw [hs, hs'] at h
  have hts := Option.some.inj h
  exact ⟨le_of_eq (congrArg Prod.fst hts).symm,
         le_of_eq (congrArg Prod.snd hts).symm⟩

theorem counterFrame_update (st : ProcState) (sid0 : String)
    (f : Session → Session)
    (hf : ∀ s, (f s).totalChunks = s.totalChunks
        ∧ (f s).processedChunks = s.processedChunks) :
    CounterFrame st { st with sessions := updateSessions st.sessions sid0 f } := by
  refine ⟨rfl, fun sid => ?_⟩
  by_cases h : sid = sid0
  · subst h
    show (lookupSessions (updateSessions st.sessions sid f) sid).map _
      = (lookupSessions st.sessions sid).map _
    rw [lookupSessions_update_self]
    cases lookupSessions st.sessions sid with
    | none => rfl
    | some s => simp [(hf s).1, (hf s).2]
  · show (lookupSessions (updateSessions st.sessions sid0 f) sid).map _
      = (lookupSessions st.sessions sid).map _
    rw [lookupSessions_update_ne st.sessions sid0 sid f h]

theorem removeOne_queue (w : ProcState × FS) (sid : String) :
    ((removeOne w sid).1).processingQueue = w.1.processingQueue := by
  unfold removeOne
  cases lookupSessions w.1.sessions sid with
  | none => rfl
  | some s =>
    dsimp only
    split
    · rfl
    · rfl

theorem removeOne_lookup_le (w : ProcState × FS) (sid0 sid : String) (s : Session)
    (h : lookupSession ((removeOne w sid0).1) sid = some s) :
    lookupSession w.1 sid = some s := by
  unfold removeOne at h
  cases hw : lookupSessions w.1.sessions sid0 with
  | none => rw [hw] at h; exact h
  | some s0 =>
    rw [hw] at h
    dsimp only at h
    split at h
    · exact lookupSessions_remove_le w.1.sessions sid0 sid s h
    · exact lookupSessions_remove_le w.1.sessions sid0 sid s h

theorem foldl_removeOne_queue (sids : List String) (w : ProcState × FS) :
    ((sids.foldl removeOne w).1).processingQueue = w.1.processingQueue := by
  induction sids generalizing w with
  | nil => rfl
  | cons a rest ih => rw [List.foldl_cons, ih, removeOne_queue]

theorem foldl_removeOne_lookup_le (sids : List String) (w : ProcState × FS)
    (sid : String) (s : Session)
    (h : lookupSession ((sids.foldl removeOne w).1) sid = some s) :
    lookupSession w.1 sid = some s := by
  induction sids generalizing w with
  | nil => exact h
  | cons a rest ih =>
    rw [List.foldl_cons] at h
    exact removeOne_lookup_le w a sid s (ih (removeOne w a) h)

theorem cleanupCompletedSessions_queue (st : ProcState) (fs : FS) (now : Nat) :
    ((cleanupCompletedSessions st fs now).1).processingQueue
      = st.processingQueue := by
  unfold cleanupCompletedSessions
  split
  · rfl
  · rw [foldl_removeOne_queue]

theorem cleanupCompletedSessions_lookup_le (st : ProcState) (fs : FS) (now : Nat)
    (sid : String) (s : Session)
    (h : lookupSession ((cleanupCompletedSessions st fs now).1) sid = some s) :
    lookupSession st sid = some s := by
  unfold cleanupCompletedSessions at h
  split at h
  · exact h
  · exact foldl_removeOne_lookup_le _ _ sid s h

theorem cleanupSession_queue (st : ProcState) (fs : FS) (sid : String) :
    ((cleanupSession st fs sid).1).processingQueue = st.processingQueue := by
  unfold cleanupSession
  cases lookupSession st sid with
  | none => rfl
  | some s =>
    dsimp only
    split
    · rfl
    · rfl

theorem cleanupSession_lookup_le (st : ProcState) (fs : FS) (sid0 sid : String)
    (s : Session)
    (h : lookupSession ((cleanupSession st fs sid0).1) sid = some s) :
    lookupSession st sid = some s := by
  unfold cleanupSession at h
  cases hw : lookupSession st sid0 with
  | none => rw [hw] at h; exact h
  | some s0 =>
    rw [hw] at h
    dsimp only at h
    split at h
    · exact lookupSessions_remove_le st.sessions sid0 sid s h
    · exact lookupSessions_remove_le st.sessions sid0 sid s h

theorem cleanupSession_lookup_self (st : ProcState) (fs : FS) (sid : String) :
    lookupSession ((cleanupSession st fs sid).1) sid = none := by
  unfold cleanupSession
  cases hw : lookupSession st sid with
  | none => exact hw
  | some s =>
    dsimp only
    split
    · exact lookupSessions_remove_self st.sessions sid
    · exact lookupSessions_remove_self st.sessions sid

theorem cleanupSession_fs (st : ProcState) (fs : FS) (sid : String) :
    (cleanupSession st fs sid).2 = fs := by
  unfold cleanupSession
  cases lookupSession st sid with
  | none => rfl
  | some s =>
    dsimp only
    split
    · next h => exact absurd h.2 (by decide)
    · rfl

/-! ## Characterization of one worker iteration -/

theorem mark_lookup_counters (st : ProcState) (sid fp : String) :
    (lookupSession (markProcessedAndCount st sid fp) sid).map
        (fun s => (s.totalChunks, s.processedChunks))
      = (lookupSession st sid).map
          (fun s => (s.totalChunks, s.processedChunks + 1)) := by
  rw [markProcessedAndCount_lookup_self]
  cases lookupSession st sid with
  | none => rfl
  | some s => rfl

theorem processQueue_nil (st : ProcState) (fs : FS) (oc : TranscribeOutcome)
    (hq : st.processingQueue = []) : processQueue st fs oc = st := by
  unfold processQueue
  rw [hq]

theorem processQueue_cons (st : ProcState) (fs : FS) (oc : TranscribeOutcome)
    (j : ChunkInfo) (rest : List ChunkInfo) (hq : st.processingQueue = j :: rest) :
    processQueue st fs oc
      = workerBody { st with processingQueue := rest } fs j oc := by
  unfold processQueue
  rw [hq]

theorem workerBody_queue (st1 : ProcState) (fs : FS) (j : ChunkInfo)
    (oc : TranscribeOutcome) :
    (workerBody st1 fs j oc).processingQueue = st1.processingQueue := by
  unfold workerBody
  cases oc with
  | ok text language =>
    dsimp only
    split
    · rfl
    · rw [markProcessedAndCount_queue]
      split
      · rw [sendWebsocketMessageImmediate_queue]
      · rfl
  | fileNotFound =>
    dsimp only
    split
    · rfl
    · rfl
  | failure =>
    dsimp only
    split
    · rfl
    · rfl

theorem workerBody_marked (st1 : ProcState) (fs : FS) (j : ChunkInfo)
    (oc : TranscribeOutcome) :
    workerMarkedPath st1 fs j ∈ (workerBody st1 fs j oc).processedFiles := by
  unfold workerBody
  by_cases hex : fs.fileExists (resolveJobPath st1 fs j) = true
  · have hm : workerMarkedPath st1 fs j
        = renderAbs (absComps fs.cwd (resolveJobPath st1 fs j)) := by
      unfold workerMarkedPath
      rw [if_pos hex]
    cases oc with
    | ok text language =>
      dsimp only
      rw [if_neg (not_not_intro hex), hm]
      exact mem_addProcessed_self _ _
    | fileNotFound =>
      dsimp only
      rw [if_neg (not_not_intro hex), hm]
      exact mem_addProcessed_self _ _
    | failure =>
      dsimp only
      rw [if_neg (not_not_intro hex), hm]
      exact mem_addProcessed_self _ _
  · have hm : workerMarkedPath st1 fs j = resolveJobPath st1 fs j := by
      unfold workerMarkedPath
      rw [if_neg hex]
    cases oc with
    | ok text language =>
      dsimp only
      rw [if_pos hex, hm]
      exact mem_addProcessed_self _ _
    | fileNotFound =>
      dsimp only
      rw [if_pos hex, hm]
      exact mem_addProcessed_self _ _
    | failure =>
      dsimp only
      rw [if_pos hex, hm]
      exact mem_addProcessed_self _ _

theorem workerBody_lookup_ne (st1 : ProcState) (fs : FS) (j : ChunkInfo)
    (oc : TranscribeOutcome) (sid : String) (hne : sid ≠ j.sessionId) :
    lookupSession (workerBody st1 fs j oc) sid = lookupSession st1 sid := by
  unfold workerBody
  cases oc with
  | ok text language =>
    dsimp only
    split
    · exact markProcessedAndCount_lookup_ne st1 j.sessionId sid _ hne
    · rw [markProcessedAndCount_lookup_ne _ _ _ _ hne]
      split
      · exact sendWebsocketMessageImmediate_lookup_ne st1 j.sessionId sid _ _ _ hne
      · rfl
  | fileNotFound =>
    dsimp only
    split
    · exact markProcessedAndCount_lookup_ne st1 j.sessionId sid _ hne
    · exact markProcessedAndCount_lookup_ne st1 j.sessionId sid _ hne
  | failure =>
    dsimp only
    split
    · exact markProcessedAndCount_lookup_ne st1 j.sessionId sid _ hne
    · rfl

theorem workerBody_lookup_counters (st1 : ProcState) (fs : FS) (j : ChunkInfo)
    (oc : TranscribeOutcome) :
    (lookupSession (workerBody st1 fs j oc) j.sessionId).map
        (fun s => (s.totalChunks, s.processedChunks))
      = (lookupSession st1 j.sessionId).map
          (fun s => (s.totalChunks, s.processedChunks + workerIncr st1 fs j oc)) := by
  unfold workerBody
  cases oc with
  | ok text language =>
    have hi : workerIncr st1 fs j (.ok text language) = 1 := by
      unfold workerIncr
      exact if_neg (fun hc => TranscribeOutcome.noConfusion hc.2)
    rw [hi]
    dsimp only
    by_cases hex : fs.fileExists (resolveJobPath st1 fs j) = true
    · rw [if_neg (not_not_intro hex), mark_lookup_counters]
      split
      · exact sendWebsocketMessageImmediate_lookup_counters st1 j.sessionId
          j.chunkNumber _ _ j.sessionId (fun p => p + 1)
      · rfl
    · rw [if_pos hex]
      exact mark_lookup_counters st1 j.sessionId _
  | fileNotFound =>
    have hi : workerIncr st1 fs j .fileNotFound = 1 := by
      unfold workerIncr
      exact if_neg (fun hc => TranscribeOutcome.noConfusion hc.2)
    rw [hi]
    dsimp only
    by_cases hex : fs.fileExists (resolveJobPath st1 fs j) = true
    · rw [if_neg (not_not_intro hex)]
      exact mark_lookup_counters st1 j.sessionId _
    · rw [if_pos hex]
      exact mark_lookup_counters st1 j.sessionId _
  | failure =>
    by_cases hex : fs.fileExists (resolveJobPath st1 fs j) = true
    · have hi : workerIncr st1 fs j .failure = 0 := by
        unfold workerIncr
        exact if_pos ⟨hex, rfl⟩
      rw [hi]
      dsimp only
      rw [if_neg (not_not_intro hex)]
      rfl
    · have hi : workerIncr st1 fs j .failure = 1 := by
        unfold workerIncr
        exact if_neg (fun hc => hex hc.1)
      rw [hi]
      dsimp only
      rw [if_pos hex]
      exact mark_lookup_counters st1 j.sessionId _

theorem workerBody_sessions_absent (st1 : ProcState) (fs : FS) (j : ChunkInfo)
    (oc : TranscribeOutcome) (h : lookupSession st1 j.sessionId = none) :
    (workerBody st1 fs j oc).sessions = st1.sessions := by
  have hu : ∀ f, updateSessions st1.sessions j.sessionId f = st1.sessions :=
    fun f => updateSessions_absent st1.sessions j.sessionId f h
  unfold workerBody
  cases oc with
  | ok text language =>
    dsimp only
    split
    · exact hu _
    · rw [sendWebsocketMessageImmediate_absent st1 j.sessionId _ _ _ h, ite_self]
      exact hu _
  | fileNotFound =>
    dsimp only
    split
    · exact hu _
    · exact hu _
  | failure =>
    dsimp only
    split
    · exact hu _
    · rfl

theorem handleDisconnect_lookup_self (st : ProcState) (fs : FS) (sid : String) :
    lookupSession (handleDisconnect st fs sid).1 sid = none :=
  cleanupSession_lookup_self (markWebsocketDisconnected st sid) fs sid

theorem handleDisconnect_fs (st : ProcState) (fs : FS) (sid : String) :
    (handleDisconnect st fs sid).2 = fs :=
  cleanupSession_fs (markWebsocketDisconnected st sid) fs sid

theorem handleDisconnect_queue (st : ProcState) (fs : FS) (sid : String) :
    (handleDisconnect st fs sid).1.processingQueue = st.processingQueue :=
  cleanupSession_queue (markWebsocketDisconnected st sid) fs sid

theorem handleDisconnect_processedFiles (st : ProcState) (fs : FS) (sid : String) :
    (handleDisconnect st fs sid).1.processedFiles = st.processedFiles :=
  cleanupSession_processedFiles (markWebsocketDisconnected st sid) fs sid

/-- **C2 (amended).** When the transport closes before `end`, the
handler first marks `websocket_active=False`; but the endpoint's
`finally`-block `cleanup_session` then deletes the session's registry
entry immediately (storage is untouched, `ENABLE_AUTO_CLEANUP` being
`False`) — the entry does not remain until age-based eviction. Chunks
already queued for the session are still dequeued and their storage
references marked processed by the Worker; only the counter and mailbox
updates are skipped, the session being absent. -/
theorem disconnect_marks_then_removes (st : ProcState) (fs : FS) (sid : String)
    (s : Session) (h : lookupSession st sid = some s) (oc : TranscribeOutcome)
    (j : ChunkInfo) (rest : List ChunkInfo) :
    lookupSession (markWebsocketDisconnected st sid) sid
        = some { s with websocketActive := false }
    ∧ lookupSession (handleDisconnect st fs sid).1 sid = none
    ∧ (handleDisconnect st fs sid).2 = fs
    ∧ (handleDisconnect st fs sid).1.processingQueue = st.processingQueue
    ∧ (handleDisconnect st fs sid).1.processedFiles = st.processedFiles
    ∧ ((handleDisconnect st fs sid).1.processingQueue = j :: rest →
        j.sessionId = sid →
        (processQueue (handleDisconnect st fs sid).1 fs oc).processingQueue = rest
        ∧ workerMarkedPath (handleDisconnect st fs sid).1 fs j
            ∈ (processQueue (handleDisconnect st fs sid).1 fs oc).processedFiles
        ∧ (processQueue (handleDisconnect st fs sid).1 fs oc).sessions
            = (handleDisconnect st fs sid).1.sessions) := by
  refine ⟨?_, handleDisconnect_lookup_self st fs sid, handleDisconnect_fs st fs sid,
    handleDisconnect_queue st fs sid, handleDisconnect_processedFiles st fs sid, ?_⟩
  · show lookupSessions (updateSessions st.sessions sid _) sid = _
    rw [lookupSessions_update_self]
    have h' : lookupSessions st.sessions sid = some s := h
    rw [h']
    rfl
  · intro hq hsid
    rw [processQueue_cons (handleDisconnect st fs sid).1 fs oc j rest hq]
    have habs : lookupSession
        { (handleDisconnect st fs sid).1 with processingQueue := rest }
        j.sessionId = none := by
      show lookupSession (handleDisconnect st fs sid).1 j.sessionId = none
      rw [hsid]
      exact handleDisconnect_lookup_self st fs sid
    refine ⟨?_, ?_, ?_⟩
    · rw [workerBody_queue]
    · exact workerBody_marked _ fs j oc
    · rw [workerBody_sessions_absent _ fs j oc habs]

theorem disconnect_marks_then_removes_witness :
    lookupSession (handleDisconnect c2State c2FS "s2").1 "s2" = none
      ∧ (processQueue (handleDisconnect c2State c2FS "s2").1 c2FS
          (.ok "hello" "en")).processingQueue = []
      ∧ workerMarkedPath (handleDisconnect c2State c2FS "s2").1 c2FS c2Job
          ∈ (processQueue (handleDisconnect c2State c2FS "s2").1 c2FS
              (.ok "hello" "en")).processedFiles := by
  have H := disconnect_marks_then_removes c2State c2FS "s2" c2Session (by decide)
    (.ok "hello" "en") c2Job []
  have H6 := H.2.2.2.2.2 (by decide) (by decide)
  exact ⟨H.2.1, H6.1, H6.2.1⟩

/-- **C3 (amended).** Every failure during a worker iteration is caught
without stopping the loop (the job is popped and the iteration returns),
and the job's storage reference is always added to the ProcessedSet; but
`processed_chunks` is incremented only in the missing-file and
`FileNotFoundError` branches — the generic exception branch
(src/main.py:1925) adds the marker without incrementing the counter. -/
theorem worker_marks_processed_in_all_branches (st : ProcState) (fs : FS)
    (oc : TranscribeOutcome) (j : ChunkInfo) (rest : List ChunkInfo)
    (s : Session) (hq : st.processingQueue = j :: rest)
    (hs : lookupSession st j.sessionId = some s) :
    (processQueue st fs oc).processingQueue = rest
    ∧ workerMarkedPath st fs j ∈ (processQueue st fs oc).processedFiles
    ∧ (lookupSession (processQueue st fs oc) j.sessionId).map
          (fun s => (s.totalChunks, s.processedChunks))
        = some (s.totalChunks, s.processedChunks + workerIncr st fs j oc)
    ∧ (oc = .failure → fs.fileExists (resolveJobPath st fs j) = true →
        workerIncr st fs j oc = 0)
    ∧ (oc ≠ .failure → workerIncr st fs j oc = 1) := by
  rw [processQueue_cons st fs oc j rest hq]
  refine ⟨?_, ?_, ?_, ?_, ?_⟩
  · rw [workerBody_queue]
  · exact workerBody_marked _ fs j oc
  · rw [workerBody_lookup_counters]
    have hs' : lookupSession { st with processingQueue := rest } j.sessionId
        = some s := hs
    rw [hs']
    rfl
  · intro hoc hex
    subst hoc
    unfold workerIncr
    exact if_pos ⟨hex, rfl⟩
  · intro hoc
    unfold workerIncr
    exact if_neg (fun hc => hoc hc.2)

theorem worker_marks_processed_in_all_branches_witness :
    (processQueue c3State c3FS .fileNotFound).processingQueue = []
      ∧ (lookupSession (processQueue c3State c3FS .fileNotFound) "s3").map
          (fun s => (s.totalChunks, s.processedChunks)) = some (1, 1) := by
  have H := worker_marks_processed_in_all_branches c3State c3FS .fileNotFound
    c3Job [] c3Session (by decide) (by decide)
  exact ⟨H.1, H.2.2.1.trans (by decide)⟩

/-- **C4 (amended).** `total_chunks` is raised to
`max(total_chunks, sequenceNumber)` only when the job is actually
appended to the queue (queue below capacity, chunk file visible on
storage); a chunk dropped because the queue is full, or because its file
is not visible, leaves the whole processor state — `total_chunks`
included — unchanged. -/
theorem total_chunks_updated_only_on_enqueue (st : ProcState) (fs : FS)
    (sid fp : String) (n now : Nat) (s : Session)
    (hs : lookupSession st sid = some s) :
    (st.maxQueueSize ≤ st.processingQueue.length →
        addChunkToQueue st fs sid fp n now = st)
    ∧ (¬ st.maxQueueSize ≤ st.processingQueue.length →
        fs.fileExists fp = false → addChunkToQueue st fs sid fp n now = st)
    ∧ (¬ st.maxQueueSize ≤ st.processingQueue.length →
        fs.fileExists fp = true →
        (lookupSession (addChunkToQueue st fs sid fp n now) sid).map
            (fun s => s.totalChunks) = some (max s.totalChunks n)
        ∧ ∃ job, (addChunkToQueue st fs sid fp n now).processingQueue
              = st.processingQueue ++ [job]
            ∧ job.sessionId = sid ∧ job.filepath = fp ∧ job.chunkNumber = n) := by
  refine ⟨?_, ?_, ?_⟩
  · intro h
    unfold addChunkToQueue
    rw [if_pos h]
  · intro h hne
    unfold addChunkToQueue
    rw [if_neg h]
    dsimp only
    rw [if_pos (by simp [hne])]
  · intro h hex
    unfold addChunkToQueue
    rw [if_neg h]
    dsimp only
    rw [if_neg (not_not_intro hex)]
    constructor
    · show (lookupSessions (updateSessions _ sid _) sid).map _ = _
      rw [lookupSessions_update_self]
      have hs' : lookupSessions st.sessions sid = some s := hs
      rw [hs']
      rfl
    · exact ⟨_, rfl, rfl, rfl, rfl⟩

theorem total_chunks_updated_only_on_enqueue_witness :
    addChunkToQueue c4Full c4FS "s4" "/srv/audio/session_s4/chunk_5_a.wav" 5 0
        = c4Full
      ∧ (lookupSession (addChunkToQueue c4Small c4FS "s4"
          "/srv/audio/session_s4/chunk_5_a.wav" 5 0) "s4").map
          (fun s => s.totalChunks) = some (max c4Session.totalChunks 5) := by
  constructor
  · exact (total_chunks_updated_only_on_enqueue c4Full c4FS "s4"
      "/srv/audio/session_s4/chunk_5_a.wav" 5 0 c4Session (by decide)).1 (by decide)
  · exact ((total_chunks_updated_only_on_enqueue c4Small c4FS "s4"
      "/srv/audio/session_s4/chunk_5_a.wav" 5 0 c4Session (by decide)).2.2
      (by decide) (by decide)).1

/-! ## Per-operation counter lemmas for the invariant -/

theorem counterFrame_refl (st : ProcState) : CounterFrame st st :=
  ⟨rfl, fun _ => rfl⟩

theorem mono_refl (st : ProcState) :
    ∀ sid s s', lookupSession st sid = some s → lookupSession st sid = some s' →
      s.totalChunks ≤ s'.totalChunks ∧ s.processedChunks ≤ s'.processedChunks := by
  intro sid s s' hs hs'
  rw [hs] at hs'
  cases Option.some.inj hs'
  exact ⟨le_refl _, le_refl _⟩

theorem inv_mono_of_counterFrame (st st' : ProcState) (hf : CounterFrame st st')
    (hInv : SessionCountersInv st) :
    SessionCountersInv st'
    ∧ ∀ sid s s', lookupSession st sid = some s →
        lookupSession st' sid = some s' →
        s.totalChunks ≤ s'.totalChunks ∧ s.processedChunks ≤ s'.processedChunks :=
  ⟨counterFrame_inv st st' hf hInv,
   fun sid s s' hs hs' => counterFrame_mono st st' hf sid s s' hs hs'⟩

theorem inv_mono_of_removal (st st' : ProcState)
    (hq : st'.processingQueue = st.processingQueue)
    (hl : ∀ sid s, lookupSession st' sid = some s → lookupSession st sid = some s)
    (hInv : SessionCountersInv st) :
    SessionCountersInv st'
    ∧ ∀ sid s s', lookupSession st sid = some s →
        lookupSession st' sid = some s' →
        s.totalChunks ≤ s'.totalChunks ∧ s.processedChunks ≤ s'.processedChunks := by
  constructor
  · intro sid s hs
    have h := hInv sid s (hl sid s hs)
    rw [hq]
    exact h
  · intro sid s s' hs hs'
    have h2 := hl sid s' hs'
    rw [hs] at h2
    cases Option.some.inj h2
    exact ⟨le_refl _, le_refl _⟩

theorem markSessionComplete_counterFrame (st : ProcState) (sid : String) :
    CounterFrame st (markSessionComplete st sid) :=
  counterFrame_update st sid _ (fun _ => ⟨rfl, rfl⟩)

theorem markWebsocketDisconnected_counterFrame (st : ProcState) (sid : String) :
    CounterFrame st (markWebsocketDisconnected st sid) :=
  counterFrame_update st sid _ (fun _ => ⟨rfl, rfl⟩)

theorem setSessionDir_counterFrame (st : ProcState) (sid dir : String) :
    CounterFrame st (setSessionDir st sid dir) :=
  counterFrame_update st sid _ (fun _ => ⟨rfl, rfl⟩)

theorem updateSessionUsername_counterFrame (st : ProcState) (sid u : String)
    (c : Option Nat) :
    CounterFrame st ((updateSessionUsername st sid u c).1) := by
  unfold updateSessionUsername
  cases hl : lookupSession st sid with
  | none => exact counterFrame_refl st
  | some s => exact counterFrame_update st sid _ (fun _ => ⟨rfl, rfl⟩)

theorem sendWebsocketMessageImmediate_counterFrame (st : ProcState) (sid : String)
    (n : Nat) (t l : String) :
    CounterFrame st (sendWebsocketMessageImmediate st sid n t l) := by
  cases hl : lookupSession st sid with
  | none =>
    rw [sendWebsocketMessageImmediate_absent st sid n t l hl]
    exact counterFrame_refl st
  | some s =>
    by_cases hw : s.websocketActive = true
    · rw [sendWebsocketMessageImmediate_active st sid n t l s hl hw]
      exact counterFrame_update st sid _ (fun _ => ⟨rfl, rfl⟩)
    · have hw' : s.websocketActive = false := by simp at hw; exact hw
      rw [sendWebsocketMessageImmediate_inactive st sid n t l s hl hw']
      exact counterFrame_refl st

theorem drainPendingMessages_counterFrame (st : ProcState) (sid : String) :
    CounterFrame st ((drainPendingMessages st sid).2) := by
  cases hl : lookupSession st sid with
  | none =>
    rw [drainPendingMessages_absent st sid hl]
    exact counterFrame_refl st
  | some s =>
    rw [drainPendingMessages_present st sid s hl]
    exact counterFrame_update st sid _ (fun _ => ⟨rfl, rfl⟩)

theorem addChunkToQueue_full_drop (st : ProcState) (fs : FS) (sid0 fp : String)
    (n now : Nat) (hfull : st.maxQueueSize ≤ st.processingQueue.length) :
    addChunkToQueue st fs sid0 fp n now = st := by
  unfold addChunkToQueue
  rw [if_pos hfull]

theorem addChunkToQueue_missing_drop (st : ProcState) (fs : FS) (sid0 fp : String)
    (n now : Nat) (hfull : ¬ st.maxQueueSize ≤ st.processingQueue.length)
    (hex : ¬ fs.fileExists fp = true) :
    addChunkToQueue st fs sid0 fp n now = st := by
  unfold addChunkToQueue
  rw [if_neg hfull]
  dsimp only
  rw [if_pos hex]

theorem addChunkToQueue_enqueue_spec (st : ProcState) (fs : FS) (sid0 fp : String)
    (n now : Nat) (hfull : ¬ st.maxQueueSize ≤ st.processingQueue.length)
    (hex : fs.fileExists fp = true) :
    (∀ sid, lookupSession (addChunkToQueue st fs sid0 fp n now) sid
        = if sid = sid0
          then (lookupSession st sid).map
            (fun s => { s with totalChunks := max s.totalChunks n })
          else lookupSession st sid)
    ∧ ∃ job, (addChunkToQueue st fs sid0 fp n now).processingQueue
          = st.processingQueue ++ [job]
        ∧ job.sessionId = sid0 := by
  unfold addChunkToQueue
  rw [if_neg hfull]
  dsimp only
  rw [if_neg (not_not_intro hex)]
  constructor
  · intro sid
    by_cases h : sid = sid0
    · subst h
      rw [if_pos rfl]
      exact lookupSessions_update_self st.sessions sid _
    · rw [if_neg h]
      exact lookupSessions_update_ne st.sessions sid0 sid _ h
  · exact ⟨_, rfl, rfl⟩

theorem handleDisconnect_lookup_le (st : ProcState) (fs : FS) (sid0 sid : String)
    (s : Session)
    (h : lookupSession (handleDisconnect st fs sid0).1 sid = some s) :
    lookupSession st sid = some s := by
  by_cases he : sid = sid0
  · subst he
    rw [handleDisconnect_lookup_self] at h
    cases h
  · have h2 := cleanupSession_lookup_le (markWebsocketDisconnected st sid0) fs
      sid0 sid s h
    rwa [show lookupSession (markWebsocketDisconnected st sid0) sid
        = lookupSession st sid
      from lookupSessions_update_ne st.sessions sid0 sid _ he] at h2

theorem workerIncr_le_one (st : ProcState) (fs : FS) (j : ChunkInfo)
    (oc : TranscribeOutcome) : workerIncr st fs j oc ≤ 1 := by
  unfold workerIncr
  split
  · exact Nat.zero_le 1
  · exact le_refl 1

theorem registerSession_inv_mono (st : ProcState) (sid0 dir u : String)
    (now : Nat) (hInv : SessionCountersInv st)
    (hfresh : lookupSession st sid0 = none)
    (hjobs : countJobs st.processingQueue sid0 = 0) :
    SessionCountersInv (registerSession st sid0 dir u now)
    ∧ ∀ sid s s', lookupSession st sid = some s →
        lookupSession (registerSession st sid0 dir u now) sid = some s' →
        s.totalChunks ≤ s'.totalChunks ∧ s.processedChunks ≤ s'.processedChunks := by
  have hlook : ∀ sid, lookupSession (registerSession st sid0 dir u now) sid
      = if sid = sid0 then some (freshSession dir u now)
        else lookupSession st sid := by
    intro sid
    by_cases h : sid = sid0
    · subst h
      rw [if_pos rfl]
      exact lookupSessions_set_self st.sessions sid _
    · rw [if_neg h]
      exact lookupSessions_set_ne st.sessions sid0 sid _ h
  have hq : (registerSession st sid0 dir u now).processingQueue
      = st.processingQueue := rfl
  constructor
  · intro sid s hs
    rw [hlook sid] at hs
    rw [hq]
    by_cases h : sid = sid0
    · rw [if_pos h] at hs
      cases Option.some.inj hs
      subst h
      constructor
      · show (0 : Nat) + countJobs st.processingQueue sid ≤ max 0 1
        rw [hjobs]
        decide
      · intro _
        exact ⟨rfl, hjobs⟩
    · rw [if_neg h] at hs
      exact hInv sid s hs
  · intro sid s s' hs hs'
    rw [hlook sid] at hs'
    by_cases h : sid = sid0
    · rw [h, hfresh] at hs
      cases hs
    · rw [if_neg h] at hs'
      rw [hs] at hs'
      cases Option.some.inj hs'
      exact ⟨le_refl _, le_refl _⟩

theorem addChunkToQueue_inv_mono (st : ProcState) (fs : FS) (sid0 fp : String)
    (n now : Nat) (hInv : SessionCountersInv st)
    (hWF : ∀ s, lookupSession st sid0 = some s → s.totalChunks < n) :
    SessionCountersInv (addChunkToQueue st fs sid0 fp n now)
    ∧ ∀ sid s s', lookupSession st sid = some s →
        lookupSession (addChunkToQueue st fs sid0 fp n now) sid = some s' →
        s.totalChunks ≤ s'.totalChunks ∧ s.processedChunks ≤ s'.processedChunks := by
  by_cases hfull : st.maxQueueSize ≤ st.processingQueue.length
  · rw [addChunkToQueue_full_drop st fs sid0 fp n now hfull]
    exact ⟨hInv, mono_refl st⟩
  by_cases hex : fs.fileExists fp = true
  case neg =>
    rw [addChunkToQueue_missing_drop st fs sid0 fp n now hfull hex]
    exact ⟨hInv, mono_refl st⟩
  case pos =>
    obtain ⟨hlook, job, hq, hjid⟩ :=
      addChunkToQueue_enqueue_spec st fs sid0 fp n now hfull hex
    have hcnt : ∀ sid,
        countJobs (addChunkToQueue st fs sid0 fp n now).processingQueue sid
          = countJobs st.processingQueue sid
            + (if sid0 = sid then 1 else 0) := by
      intro sid
      rw [hq, countJobs_append]
      congr 1
      rw [countJobs_cons job [] sid, hjid]
      rfl
    constructor
    · intro sid s' hs'
      rw [hlook sid] at hs'
      rw [hcnt sid]
      by_cases h : sid = sid0
      · subst h
        rw [if_pos rfl] at hs'
        rw [if_pos rfl]
        cases hl : lookupSession st sid with
        | none => rw [hl] at hs'; cases hs'
        | some s =>
          rw [hl] at hs'
          cases Option.some.inj hs'
          have hlt := hWF s hl
          have hi := hInv sid s hl
          have h1 := hi.1
          constructor
          · show s.processedChunks + (countJobs st.processingQueue sid + 1)
              ≤ max (max s.totalChunks n) 1
            by_cases h0 : s.totalChunks = 0
            · obtain ⟨hp0, hc0⟩ := hi.2 h0
              omega
            · omega
          · intro habs
            exfalso
            have habs' : max s.totalChunks n = 0 := habs
            omega
      · rw [if_neg h] at hs'
        rw [if_neg (fun he => h he.symm), Nat.add_zero]
        exact hInv sid s' hs'
    · intro sid s s' hs hs'
      rw [hlook sid] at hs'
      by_cases h : sid = sid0
      · rw [if_pos h] at hs'
        rw [hs] at hs'
        cases Option.some.inj hs'
        exact ⟨le_max_left _ _, le_refl _⟩
      · rw [if_neg h] at hs'
        rw [hs] at hs'
        cases Option.some.inj hs'
        exact ⟨le_refl _, le_refl _⟩

theorem processQueue_inv_mono (st : ProcState) (fs : FS) (oc : TranscribeOutcome)
    (hInv : SessionCountersInv st) :
    SessionCountersInv (processQueue st fs oc)
    ∧ ∀ sid s s', lookupSession st sid = some s →
        lookupSession (processQueue st fs oc) sid = some s' →
        s.totalChunks ≤ s'.totalChunks ∧ s.processedChunks ≤ s'.processedChunks := by
  cases hq : st.processingQueue with
  | nil =>
    rw [processQueue_nil st fs oc hq]
    exact ⟨hInv, mono_refl st⟩
  | cons j rest =>
    have hpq := processQueue_cons st fs oc j rest hq
    have hqueue : (processQueue st fs oc).processingQueue = rest := by
      rw [hpq, workerBody_queue]
    have hne : ∀ sid, sid ≠ j.sessionId →
        lookupSession (processQueue st fs oc) sid = lookupSession st sid := by
      intro sid h
      rw [hpq]
      exact workerBody_lookup_ne _ fs j oc sid h
    have hself : (lookupSession (processQueue st fs oc) j.sessionId).map
          (fun s => (s.totalChunks, s.processedChunks))
        = (lookupSession st j.sessionId).map
            (fun s => (s.totalChunks, s.processedChunks
              + workerIncr { st with processingQueue := rest } fs j oc)) := by
      rw [hpq]
      exact workerBody_lookup_counters _ fs j oc
    have hincr := workerIncr_le_one { st with processingQueue := rest } fs j oc
    constructor
    · intro sid s' hs'
      rw [hqueue]
      by_cases h : sid = j.sessionId
      · have hmap := hself
        rw [← h] at hmap
        rw [hs'] at hmap
        cases hl : lookupSession st sid with
        | none => rw [hl] at hmap; cases hmap
        | some s =>
          rw [hl] at hmap
          have hinj := Option.some.inj hmap
          have ht : s'.totalChunks = s.totalChunks := congrArg Prod.fst hinj
          have hp : s'.processedChunks = s.processedChunks
              + workerIncr { st with processingQueue := rest } fs j oc :=
            congrArg Prod.snd hinj
          have hi := hInv sid s hl
          have hc : countJobs st.processingQueue sid
              = 1 + countJobs rest sid := by
            rw [hq, countJobs_cons, if_pos h.symm]
          have h1 := hi.1
          rw [hc] at h1
          constructor
          · rw [ht, hp]
            by_cases h0 : s.totalChunks = 0
            · obtain ⟨hp0, hc0⟩ := hi.2 h0
              rw [hc] at hc0
              omega
            · omega
          · intro h0
            rw [ht] at h0
            obtain ⟨hp0, hc0⟩ := hi.2 h0
            rw [hc] at hc0
            omega
      · rw [hne sid h] at hs'
        have hi := hInv sid s' hs'
        have hc : countJobs st.processingQueue sid = countJobs rest sid := by
          rw [hq, countJobs_cons, if_neg (fun he => h he.symm), Nat.zero_add]
        rw [hc] at hi
        exact hi
    · intro sid s s' hs hs'
      by_cases h : sid = j.sessionId
      · have hmap := hself
        rw [← h] at hmap
        rw [hs, hs'] at hmap
        have hinj := Option.some.inj hmap
        have ht : s'.totalChunks = s.totalChunks := congrArg Prod.fst hinj
        have hp : s'.processedChunks = s.processedChunks
            + workerIncr { st with processingQueue := rest } fs j oc :=
          congrArg Prod.snd hinj
        omega
      · rw [hne sid h] at hs'
        rw [hs] at hs'
        cases Option.some.inj hs'
        exact ⟨le_refl _, le_refl _⟩

/-- **C5 (amended).** For every session, at every point in the execution
(i.e. after any well-formed step from any state satisfying the
invariant, the invariant holding initially), `processed_chunks` stays at
or below `max(total_chunks, 1)`, and both counters are monotonically
non-decreasing under every operation. The convergence conjunct of the
original claim — `processed_chunks = total_chunks` once `complete=true`
and the queue is drained — does not hold (see the counterexample): a job
drained through the generic exception branch, or a chunk dropped at
enqueue time, leaves `processed_chunks` permanently below
`total_chunks`. -/
theorem counters_invariant_and_monotone (w : World) (op : Op)
    (hInv : SessionCountersInv w.proc) (hWF : WFOp w op) :
    SessionCountersInv (step w op).proc
    ∧ (∀ t, SessionCountersInv (initProcState t))
    ∧ (∀ sid s, lookupSession (step w op).proc sid = some s →
        s.processedChunks ≤ max s.totalChunks 1)
    ∧ (∀ sid s s', lookupSession w.proc sid = some s →
        lookupSession (step w op).proc sid = some s' →
        s.totalChunks ≤ s'.totalChunks ∧ s.processedChunks ≤ s'.processedChunks)
    := by
  have hinit : ∀ t, SessionCountersInv (initProcState t) := by
    intro t sid s hs
    exact Option.noConfusion hs
  have main : SessionCountersInv (step w op).proc
      ∧ ∀ sid s s', lookupSession w.proc sid = some s →
          lookupSession (step w op).proc sid = some s' →
          s.totalChunks ≤ s'.totalChunks
            ∧ s.processedChunks ≤ s'.processedChunks := by
    cases op with
    | register sid dir u now =>
      exact registerSession_inv_mono w.proc sid dir u now hInv hWF.1 hWF.2
    | ingestSave d c f ok => exact ⟨hInv, mono_refl w.proc⟩
    | addChunk sid fp n now =>
      exact addChunkToQueue_inv_mono w.proc w.fs sid fp n now hInv hWF
    | markComplete sid =>
      exact inv_mono_of_counterFrame _ _
        (markSessionComplete_counterFrame w.proc sid) hInv
    | markDisconnected sid =>
      exact inv_mono_of_counterFrame _ _
        (markWebsocketDisconnected_counterFrame w.proc sid) hInv
    | updateUsername sid u c =>
      exact inv_mono_of_counterFrame _ _
        (updateSessionUsername_counterFrame w.proc sid u c) hInv
    | setDir sid d =>
      exact inv_mono_of_counterFrame _ _
        (setSessionDir_counterFrame w.proc sid d) hInv
    | appendResult sid n t l =>
      exact inv_mono_of_counterFrame _ _
        (sendWebsocketMessageImmediate_counterFrame w.proc sid n t l) hInv
    | drain sid =>
      exact inv_mono_of_counterFrame _ _
        (drainPendingMessages_counterFrame w.proc sid) hInv
    | worker oc => exact processQueue_inv_mono w.proc w.fs oc hInv
    | reap now =>
      exact inv_mono_of_removal w.proc _
        (cleanupCompletedSessions_queue w.proc w.fs now)
        (fun sid s hs =>
          cleanupCompletedSessions_lookup_le w.proc w.fs now sid s hs) hInv
    | disconnect sid =>
      exact inv_mono_of_removal w.proc _
        (handleDisconnect_queue w.proc w.fs sid)
        (fun sid' s hs =>
          handleDisconnect_lookup_le w.proc w.fs sid sid' s hs) hInv
  refine ⟨main.1, hinit, ?_, main.2⟩
  intro sid s hs
  exact le_trans (Nat.le_add_right _ _) (main.1 sid s hs).1

theorem counters_invariant_and_monotone_witness :
    SessionCountersInv (step { proc := initProcState 0, fs := emptyFS }
      (Op.register "s1" "audio/session_s1" "unknown" 0)).proc :=
  (counters_invariant_and_monotone
    { proc := initProcState 0, fs := emptyFS }
    (Op.register "s1" "audio/session_s1" "unknown" 0)
    (fun _ _ hs => Option.noConfusion hs) ⟨rfl, rfl⟩).1

/-! ## Path lemmas for confinement -/

theorem sanitizeChar_ne_slash (c : Char) : sanitizeChar c ≠ '/' := by
  unfold sanitizeChar
  split
  · next h =>
      intro he
      subst he
      exact absurd h (by decide)
  · decide

theorem sanitize_no_slash (fname : String) :
    '/' ∉ (sanitize_filename fname).data := by
  unfold sanitize_filename
  intro hmem
  obtain ⟨c, _, hc⟩ := List.mem_map.mp hmem
  exact sanitizeChar_ne_slash c hc

theorem splitSlashAux_append_slash (xs ys : List Char) (acc : List Char) :
    splitSlashAux (xs ++ '/' :: ys) acc
      = splitSlashAux xs acc ++ splitSlashAux ys [] := by
  induction xs generalizing acc with
  | nil => simp [splitSlashAux]
  | cons c rest ih =>
    by_cases h : c = '/'
    · subst h
      simp [splitSlashAux, ih]
    · simp [splitSlashAux, h, ih]

theorem splitSlashAux_no_slash (xs : List Char) (acc : List Char)
    (h : '/' ∉ xs) : splitSlashAux xs acc = [acc.reverse ++ xs] := by
  induction xs generalizing acc with
  | nil => simp [splitSlashAux]
  | cons c rest ih =>
    have hc : c ≠ '/' := fun he => h (he ▸ List.mem_cons_self c rest)
    have hr : '/' ∉ rest := fun hm => h (List.mem_cons_of_mem c hm)
    simp [splitSlashAux, hc, ih (c :: acc) hr]

theorem splitSlashAux_slashFree (xs : List Char) (acc : List Char)
    (hacc : '/' ∉ acc) :
    ∀ ys ∈ splitSlashAux xs acc, '/' ∉ ys := by
  induction xs generalizing acc with
  | nil =>
    intro ys hys
    rw [List.mem_singleton.mp hys]
    simpa using hacc
  | cons c rest ih =>
    intro ys hys
    by_cases h : c = '/'
    · subst h
      simp only [splitSlashAux, if_pos rfl] at hys
      rcases List.mem_cons.mp hys with h' | h'
      · rw [h']
        simpa using hacc
      · exact ih [] (by simp) ys h'
    · simp only [splitSlashAux, if_neg h] at hys
      exact ih (c :: acc) (by simp [h, hacc, Ne.symm h]) ys hys

theorem stringMk_data (s : String) : String.mk s.data = s := rfl

theorem splitComps_append_slash (a b : String) (hb : '/' ∉ b.data) :
    splitComps (a ++ "/" ++ b) = splitComps a ++ [b] := by
  unfold splitComps
  have hd : (a ++ "/" ++ b).data = a.data ++ '/' :: b.data := by
    rw [String.data_append, String.data_append]
    simp [show ("/" : String).data = ['/'] from rfl]
  rw [hd, splitSlashAux_append_slash, splitSlashAux_no_slash b.data [] hb]
  simp [stringMk_data]

theorem mem_splitComps_slashFree (p : String) (x : String)
    (hx : x ∈ splitComps p) : '/' ∉ x.data := by
  unfold splitComps at hx
  obtain ⟨cs, hcs, hx'⟩ := List.mem_map.mp hx
  have := splitSlashAux_slashFree p.data [] (by simp) cs hcs
  rw [← hx']
  exact this

theorem foldl_normStep_good (l : List String) (acc : List String)
    (h : ∀ c ∈ l, GoodComp c) : l.foldl normStep acc = acc ++ l := by
  induction l generalizing acc with
  | nil => simp
  | cons c rest ih =>
    have hc := h c (List.mem_cons_self c rest)
    have hstep : normStep acc c = acc ++ [c] := by
      unfold normStep
      rw [if_neg (fun h' => h'.elim (fun h1 => hc.1 h1) (fun h2 => hc.2.1 h2)),
        if_neg hc.2.2]
    rw [List.foldl_cons, hstep, ih _ (fun d hm => h d (List.mem_cons_of_mem _ hm))]
    simp

theorem mem_normComps_aux (l : List String) :
    ∀ (acc : List String) (x : String),
      x ∈ l.foldl normStep acc → x ∈ acc ∨ (x ∈ l ∧ GoodComp x) := by
  induction l with
  | nil =>
    intro acc x hx
    exact Or.inl hx
  | cons c rest ih =>
    intro acc x hx
    rw [List.foldl_cons] at hx
    rcases ih (normStep acc c) x hx with h | h
    · unfold normStep at h
      by_cases h1 : c = "" ∨ c = "."
      · rw [if_pos h1] at h
        exact Or.inl h
      · rw [if_neg h1] at h
        by_cases h2 : c = ".."
        · rw [if_pos h2] at h
          exact Or.inl (List.mem_of_mem_dropLast h)
        · rw [if_neg h2] at h
          rcases List.mem_append.mp h with h' | h'
          · exact Or.inl h'
          · cases List.mem_singleton.mp h'
            refine Or.inr ⟨List.mem_cons_self _ _, ?_, ?_, h2⟩
            · exact fun he => h1 (Or.inl he)
            · exact fun he => h1 (Or.inr he)
    · exact Or.inr ⟨List.mem_cons_of_mem c h.1, h.2⟩

theorem mem_normComps_good (cs : List String) (x : String)
    (hx : x ∈ normComps cs) : x ∈ cs ∧ GoodComp x := by
  rcases mem_normComps_aux cs [] x hx with h | h
  · cases h
  · exact h

theorem mem_absComps_good (cwd : List String) (p : String) (x : String)
    (hcwd : ∀ c ∈ cwd, '/' ∉ c.data) (hx : x ∈ absComps cwd p) :
    GoodComp x ∧ '/' ∉ x.data := by
  unfold absComps at hx
  by_cases hh : p.data.head? = some '/'
  · rw [if_pos hh] at hx
    obtain ⟨hmem, hgood⟩ := mem_normComps_good _ _ hx
    exact ⟨hgood, mem_splitComps_slashFree p x hmem⟩
  · rw [if_neg hh] at hx
    obtain ⟨hmem, hgood⟩ := mem_normComps_good _ _ hx
    refine ⟨hgood, ?_⟩
    rcases List.mem_append.mp hmem with h' | h'
    · exact hcwd x h'
    · exact mem_splitComps_slashFree p x h'

theorem renderAbs_ne_nil_eq (l : List String) (h : l ≠ []) :
    renderAbs l = l.foldl (fun acc c => acc ++ "/" ++ c) "" := by
  cases l with
  | nil => exact absurd rfl h
  | cons c rest => rfl

theorem foldl_render_data (l : List String) (pre : String) :
    ∃ t, (l.foldl (fun acc c => acc ++ "/" ++ c) pre).data = pre.data ++ t := by
  induction l generalizing pre with
  | nil => exact ⟨[], by simp⟩
  | cons c rest ih =>
    obtain ⟨t, ht⟩ := ih (pre ++ "/" ++ c)
    refine ⟨'/' :: c.data ++ t, ?_⟩
    rw [List.foldl_cons, ht, String.data_append, String.data_append]
    simp [show ("/" : String).data = ['/'] from rfl]

theorem renderAbs_head (l : List String) :
    (renderAbs l).data.head? = some '/' := by
  cases l with
  | nil => rfl
  | cons c rest =>
    rw [renderAbs_ne_nil_eq _ (by simp), List.foldl_cons]
    obtain ⟨t, ht⟩ := foldl_render_data rest ("" ++ "/" ++ c)
    rw [ht, String.data_append, String.data_append]
    rfl

theorem splitComps_foldl (l : List String) (pre : String)
    (h : ∀ c ∈ l, '/' ∉ c.data) :
    splitComps (l.foldl (fun acc c => acc ++ "/" ++ c) pre)
      = splitComps pre ++ l := by
  induction l generalizing pre with
  | nil => simp
  | cons c rest ih =>
    rw [List.foldl_cons, ih _ (fun d hm => h d (List.mem_cons_of_mem _ hm)),
      splitComps_append_slash pre c (h c (List.mem_cons_self _ _))]
    simp

theorem splitComps_render (l : List String) (hs : ∀ c ∈ l, '/' ∉ c.data)
    (hne : l ≠ []) : splitComps (renderAbs l) = "" :: l := by
  rw [renderAbs_ne_nil_eq l hne, splitComps_foldl l "" hs]
  rfl

theorem absComps_render_roundtrip (cwd : List String) (l : List String)
    (hg : ∀ c ∈ l, GoodComp c) (hs : ∀ c ∈ l, '/' ∉ c.data) :
    absComps cwd (renderAbs l) = l := by
  unfold absComps
  rw [if_pos (renderAbs_head l)]
  by_cases hne : l = []
  · subst hne
    rfl
  · rw [splitComps_render l hs hne]
    show normComps ("" :: l) = l
    unfold normComps
    rw [List.foldl_cons]
    rw [show normStep [] "" = [] from rfl, foldl_normStep_good l [] hg]
    rfl

theorem renderAbs_concat (B₀ : List String) (b : String) (h : B₀ ≠ []) :
    renderAbs (B₀ ++ [b]) = renderAbs B₀ ++ "/" ++ b := by
  rw [renderAbs_ne_nil_eq (B₀ ++ [b]) (by simp), renderAbs_ne_nil_eq B₀ h,
    List.foldl_append]
  rfl

theorem renderAbs_dropLast_not_startswith (B : List String) (hne : B ≠ [])
    (hgood : ∀ c ∈ B, c ≠ "") :
    ¬ ((renderAbs B).data.isPrefixOf (renderAbs B.dropLast).data = true) := by
  rcases (List.eq_nil_or_concat B).resolve_left hne with ⟨B₀, b, hB⟩
  rw [List.concat_eq_append] at hB
  subst hB
  rw [List.dropLast_concat]
  intro hpre
  have hp := List.isPrefixOf_iff_prefix.mp hpre
  have hlen := hp.length_le
  have hb : b ≠ "" := hgood b (by simp)
  have hb' : 1 ≤ b.data.length := by
    cases hd : b.data with
    | nil =>
      exact absurd (show b = "" from congrArg String.mk hd) hb
    | cons _ _ => simp
  by_cases h0 : B₀ = []
  · subst h0
    have hd1 : (renderAbs ([] ++ [b])).data = '/' :: b.data := by
      rw [show ([] : List String) ++ [b] = [b] from rfl]
      show (("" ++ "/" ++ b)).data = _
      rw [String.data_append, String.data_append]
      rfl
    have hd2 : (renderAbs ([] : List String)).data = ['/'] := rfl
    rw [hd1, hd2] at hlen
    simp at hlen
    have hlen' : b.data = [] := List.length_eq_zero.mp hlen
    exact hb (congrArg String.mk hlen')
  · rw [renderAbs_concat B₀ b h0, String.data_append, String.data_append] at hlen
    simp at hlen

theorem pyJoin_eq (base f : String) (hb0 : base ≠ "")
    (hbl : base.data.getLast? ≠ some '/') (hf : '/' ∉ f.data) :
    pyJoin base f = base ++ "/" ++ f := by
  have h1 : ¬ f.data.head? = some '/' := by
    intro hc
    apply hf
    cases hd : f.data with
    | nil =>
      rw [hd] at hc
      simp at hc
    | cons a t =>
      rw [hd] at hc
      have h' : a = '/' := by simpa using hc
      rw [← h']
      exact List.mem_cons_self _ _
  unfold pyJoin
  rw [if_neg h1]
  rw [if_neg hb0]
  rw [if_neg hbl]

theorem absComps_join (cwd : List String) (base f : String) (hb0 : base ≠ "")
    (hf : '/' ∉ f.data) :
    absComps cwd (base ++ "/" ++ f) = normStep (absComps cwd base) f := by
  have hdata : (base ++ "/" ++ f).data = base.data ++ '/' :: f.data := by
    rw [String.data_append, String.data_append]
    simp [show ("/" : String).data = ['/'] from rfl]
  have hbdata : base.data ≠ [] := by
    intro hd
    exact hb0 (congrArg String.mk hd)
  have hhead : (base ++ "/" ++ f).data.head? = base.data.head? := by
    rw [hdata]
    cases hd : base.data with
    | nil => exact absurd hd hbdata
    | cons a t => rfl
  unfold absComps
  by_cases hb : base.data.head? = some '/'
  · rw [if_pos (hhead.trans hb), if_pos hb,
      splitComps_append_slash base f hf]
    unfold normComps
    rw [List.foldl_append]
    rfl
  · rw [if_neg (fun hc => hb (hhead.symm.trans hc)), if_neg hb,
      splitComps_append_slash base f hf]
    unfold normComps
    rw [← List.append_assoc, List.foldl_append]
    rfl

theorem startswith_implies_below (cwd : List String) (base f : String)
    (hb0 : base ≠ "") (hbl : base.data.getLast? ≠ some '/')
    (hf : '/' ∉ f.data) (hcwd : ∀ c ∈ cwd, '/' ∉ c.data)
    (hsw : pyStartswith (renderAbs (absComps cwd base))
        (renderAbs (absComps cwd (pyJoin base f))) = true) :
    absComps cwd base <+: absComps cwd (pyJoin base f) := by
  rw [pyJoin_eq base f hb0 hbl hf] at hsw ⊢
  rw [absComps_join cwd base f hb0 hf] at hsw ⊢
  by_cases h1 : f = "" ∨ f = "."
  · unfold normStep
    rw [if_pos h1]
  · by_cases h2 : f = ".."
    · unfold normStep at hsw ⊢
      rw [if_neg h1, if_pos h2] at hsw ⊢
      by_cases hBnil : absComps cwd base = []
      · rw [hBnil]
        exact ⟨[], rfl⟩
      · exfalso
        refine renderAbs_dropLast_not_startswith (absComps cwd base) hBnil ?_ hsw
        intro c hc
        exact (mem_absComps_good cwd base c hcwd hc).1.1
    · unfold normStep
      rw [if_neg h1, if_neg h2]
      exact ⟨[f], rfl⟩

theorem safe_path_join_ok_elim (cwd : List String) (base fname p : String)
    (h : safe_path_join cwd base fname = Except.ok p) :
    p = renderAbs (absComps cwd (pyJoin base (sanitize_filename fname)))
    ∧ pyStartswith (renderAbs (absComps cwd base))
        (renderAbs (absComps cwd (pyJoin base (sanitize_filename fname))))
        = true := by
  unfold safe_path_join at h
  dsimp only at h
  by_cases hsw : pyStartswith (renderAbs (absComps cwd base))
      (renderAbs (absComps cwd (pyJoin base (sanitize_filename fname)))) = true
  · rw [if_pos hsw] at h
    exact ⟨(Except.ok.inj h).symm, hsw⟩
  · rw [if_neg hsw] at h
    cases h

/-! ## Claim C9 -/

/-- **C9.** Every chunk file path the ingestion loop writes is confined
to the session's storage directory: `safe_path_join` returns an error
(the `ValueError`) whenever the sanitized filename would resolve outside
the base directory, every path it returns resolves below the base, every
file the audio-save step adds to the filesystem lies below the session
directory, and on the error the handler sends an `error` message and
writes nothing. Hypotheses record the shape of real invocations: the
base (session directory) is non-empty without a trailing slash, and the
working-directory components contain no separator. -/
theorem chunk_paths_confined (fs : FS) (base fname : String) (n : Nat)
    (saveOk : Bool) (hb0 : base ≠ "")
    (hbl : base.data.getLast? ≠ some '/')
    (hcwd : ∀ c ∈ fs.cwd, '/' ∉ c.data) :
    (∀ p, safe_path_join fs.cwd base fname = Except.ok p →
        absComps fs.cwd base <+: absComps fs.cwd p)
    ∧ (¬ absComps fs.cwd base <+:
          absComps fs.cwd (pyJoin base (sanitize_filename fname)) →
        ∃ e, safe_path_join fs.cwd base fname = Except.error e)
    ∧ (∀ f, f ∈ (handleAudioSave fs base n fname saveOk).1.files →
        f ∈ fs.files ∨ absComps fs.cwd base <+: f)
    ∧ (∀ e, safe_path_join fs.cwd base fname = Except.error e →
        (handleAudioSave fs base n fname saveOk).1 = fs
        ∧ (handleAudioSave fs base n fname saveOk).2
            = [WsOut.errorInvalidFilename n]) := by
  have hf := sanitize_no_slash fname
  have hokP : ∀ p, safe_path_join fs.cwd base fname = Except.ok p →
      absComps fs.cwd base <+: absComps fs.cwd p := by
    intro p hp
    obtain ⟨hpe, hsw⟩ := safe_path_join_ok_elim fs.cwd base fname p hp
    subst hpe
    have hgood : ∀ c ∈ absComps fs.cwd (pyJoin base (sanitize_filename fname)),
        GoodComp c :=
      fun c hc => (mem_absComps_good fs.cwd _ c hcwd hc).1
    have hsf : ∀ c ∈ absComps fs.cwd (pyJoin base (sanitize_filename fname)),
        '/' ∉ c.data :=
      fun c hc => (mem_absComps_good fs.cwd _ c hcwd hc).2
    rw [absComps_render_roundtrip fs.cwd _ hgood hsf]
    exact startswith_implies_below fs.cwd base _ hb0 hbl hf hcwd hsw
  refine ⟨hokP, ?_, ?_, ?_⟩
  · intro hnp
    cases he : safe_path_join fs.cwd base fname with
    | ok p =>
      obtain ⟨hpe, hsw⟩ := safe_path_join_ok_elim fs.cwd base fname p he
      exact absurd (startswith_implies_below fs.cwd base _ hb0 hbl hf hcwd hsw) hnp
    | error e => exact ⟨e, rfl⟩
  · intro f hfmem
    unfold handleAudioSave at hfmem
    cases he : safe_path_join fs.cwd base fname with
    | error e =>
      rw [he] at hfmem
      exact Or.inl hfmem
    | ok p =>
      rw [he] at hfmem
      dsimp only at hfmem
      by_cases hsv : saveOk = true
      · rw [if_pos hsv] at hfmem
        unfold FS.writeFile at hfmem
        dsimp only at hfmem
        by_cases hk : absComps fs.cwd p ∈ fs.files
        · rw [if_pos hk] at hfmem
          exact Or.inl hfmem
        · rw [if_neg hk] at hfmem
          rcases List.mem_cons.mp hfmem with h' | h'
          · rw [h']
            exact Or.inr (hokP p he)
          · exact Or.inl h'
      · rw [if_neg hsv] at hfmem
        exact Or.inl hfmem
  · intro e he
    unfold handleAudioSave
    rw [he]
    exact ⟨rfl, rfl⟩

theorem chunk_paths_confined_witness :
    absComps c9FS.cwd "audio/session_s9"
        <+: absComps c9FS.cwd "/srv/audio/session_s9/chunk_1_t.wav"
      ∧ (handleAudioSave c9FS "audio/session_s9" 1 ".." true).1 = c9FS
      ∧ (handleAudioSave c9FS "audio/session_s9" 1 ".." true).2
          = [WsOut.errorInvalidFilename 1] := by
  have H1 := (chunk_paths_confined c9FS "audio/session_s9" "chunk_1_t.wav" 1 true
    (by decide) (by decide) (by decide)).1 "/srv/audio/session_s9/chunk_1_t.wav"
    rfl
  have H2 := (chunk_paths_confined c9FS "audio/session_s9" ".." 1 true
    (by decide) (by decide) (by decide)).2.2.2
    ("Path traversal attempt: " ++ sanitize_filename "..") rfl
  exact ⟨H1, H2.1, H2.2⟩

end ICUGuard
